import Mathlib

/-!
# ztl digital I/O: input debounce engine and output pulse sequencer

A shallow embedding of `digital_input.c`, `digital_output.c`, `digital_common.h`
and `time.h`.

Conventions of the embedding.

* `uint64_t` timestamps are natural numbers below `U64`; subtraction of two
  timestamps wraps modulo `U64` exactly as in C.
* `uint16_t` values are natural numbers below `U16`; `int32_t` is `Int`.
* The raw sample `gpio_pin_get_dt(self->gpio)` and the clock `k_uptime_get()`
  are inputs of the functions that read them.
* A subscriber callback is an observer: a call is recorded as a `SubsCall` in
  the order in which the code makes it, and the callback itself does not touch
  the record it is called for.
* A pin write `gpio_pin_set_dt` is recorded in `writes`; the argument
  `pin : Option Int` is the driver's verdict (`none`: the write succeeds,
  `some e`: it fails with code `e` and `TRY` propagates `e`).
* The registry mutex is not modelled (single evaluation at a time).
-/

namespace Ztl

/-! ## digital_common.h, time.h -/

/-- Line polarity `enum ZtlLevel`. -/
inductive ZtlLevel where
  | LOW
  | HIGH
  deriving DecidableEq, Repr

/-- Inversion of a level, `ztl_digital__invert_level`. -/
def ztl_digital__invert_level (level : ZtlLevel) : ZtlLevel :=
  if ZtlLevel.LOW = level then ZtlLevel.HIGH else ZtlLevel.LOW

/-- Modulus of `uint64_t`. -/
def U64 : Nat := 18446744073709551616

/-- Modulus of `uint16_t`. -/
def U16 : Nat := 65536

/-- The macro `IS_TIME_EXPIRED_EX(tle, period, now)` of time.h on `uint64_t`
operands: `now - tle >= period || now < tle`. -/
def IS_TIME_EXPIRED_EX (tle period now : Nat) : Bool :=
  decide (period ≤ (now + U64 - tle) % U64) || decide (now < tle)

/-- Identity of a physical pin, the two fields of `struct gpio_dt_spec` the
code compares. -/
structure GpioDtSpec where
  port : Nat
  pin : Nat
  deriving DecidableEq, Repr

/-- Return codes: `0`, the three `ER_*` constants of safe_c.h, or the code of a
failed pin operation. -/
inductive Rc where
  | ok
  | ER_INVAL
  | ER_NO_MEM
  | ER_ALREADY
  | hw (code : Int)
  deriving DecidableEq, Repr

/-! ## digital_output.c -/

/-- The record `struct ZtlDigitalOutput`. -/
structure ZtlDigitalOutput where
  gpio : GpioDtSpec
  state : Bool
  hw_state : Bool
  pulse_count : Int
  pulse_period_ms : Nat
  pulse_on_ms : Nat
  tl_pulse_ms : Nat
  pulse_state : Bool
  deriving DecidableEq, Repr

/-- Outcome of an output operation: return code, record afterwards, and the
values handed to `gpio_pin_set_dt`, oldest first. -/
structure OutputResult where
  rc : Rc
  out : ZtlDigitalOutput
  writes : List Bool
  deriving DecidableEq, Repr

/-- The helper `set_output`: write only when the value differs from `hw_state`. -/
def set_output (output : ZtlDigitalOutput) (state : Bool) (pin : Option Int) : OutputResult :=
  if state ≠ output.hw_state then
    let output1 := { output with hw_state := state }
    match pin with
    | some e => ⟨Rc.hw e, output1, [output1.hw_state]⟩
    | none => ⟨Rc.ok, output1, [output1.hw_state]⟩
  else
    ⟨Rc.ok, output, []⟩

/-- The sequencer step `handle_output(self, now)`. -/
def handle_output (self : ZtlDigitalOutput) (now : Nat) (pin : Option Int) : OutputResult :=
  let period : Nat :=
    if self.pulse_state then self.pulse_on_ms
    else (self.pulse_period_ms + U16 - self.pulse_on_ms) % U16
  if 0 ≠ self.pulse_count ∧ IS_TIME_EXPIRED_EX self.tl_pulse_ms period now = true then
    let s1 := { self with tl_pulse_ms := now }
    if s1.pulse_state = false then
      if s1.pulse_count > 0 then
        let s2 := { s1 with pulse_count := s1.pulse_count - 1 }
        if 0 = s2.pulse_count then
          set_output s2 s2.state pin
        else
          let s3 := { s2 with pulse_state := !s2.pulse_state }
          set_output s3 s3.pulse_state pin
      else
        let s3 := { s1 with pulse_state := !s1.pulse_state }
        set_output s3 s3.pulse_state pin
    else
      let s3 := { s1 with pulse_state := !s1.pulse_state }
      set_output s3 s3.pulse_state pin
  else
    ⟨Rc.ok, self, []⟩

/-- The call `ztl_digital_output__set(self, state)` on a non-null record. -/
def ztl_digital_output__set (self : ZtlDigitalOutput) (state : Bool) (pin : Option Int) :
    OutputResult :=
  if 0 = self.pulse_count then
    let r := set_output self state pin
    if r.rc ≠ Rc.ok then r
    else ⟨Rc.ok, { r.out with state := state }, r.writes⟩
  else
    ⟨Rc.ok, { self with state := state }, []⟩

/-- The call `ztl_digital_output__start_blink(self, pulse_count)` on a non-null
record; `uptime` is the value of `k_uptime_get()`. -/
def ztl_digital_output__start_blink (self : ZtlDigitalOutput) (pulse_count : Int)
    (uptime : Nat) (pin : Option Int) : OutputResult :=
  let s1 := { self with pulse_count := pulse_count, pulse_state := true, tl_pulse_ms := uptime }
  set_output s1 s1.pulse_state pin

/-- The call `ztl_digital_output__config_blink(self, pulse_period_ms, pulse_on_ms)`
on a non-null record. -/
def ztl_digital_output__config_blink (self : ZtlDigitalOutput) (pulse_period_ms pulse_on_ms : Nat) :
    OutputResult :=
  if ¬ (pulse_on_ms > 0) then ⟨Rc.ER_INVAL, self, []⟩
  else if ¬ (pulse_on_ms < pulse_period_ms) then ⟨Rc.ER_INVAL, self, []⟩
  else ⟨Rc.ok, { self with pulse_period_ms := pulse_period_ms, pulse_on_ms := pulse_on_ms }, []⟩

/-- The call `ztl_digital_output__stop_blink(self)` on a non-null record. -/
def ztl_digital_output__stop_blink (self : ZtlDigitalOutput) (pin : Option Int) : OutputResult :=
  let s1 := { self with pulse_count := 0 }
  set_output s1 s1.state pin

/-- The record that `ztl_digital_output__init` leaves behind on success:
`memset` to zero, the pin reference, and the two default durations
(`DEFAULT_PULSE_PERIOD_MS = 500`, `DEFAULT_BLINK_ON_MS = 500 / 2`). -/
def output_init_record (gpio : GpioDtSpec) : ZtlDigitalOutput :=
  { gpio := gpio, state := false, hw_state := false, pulse_count := 0,
    pulse_period_ms := 500, pulse_on_ms := 500 / 2, tl_pulse_ms := 0, pulse_state := false }

/-- Ticks of the output poller with succeeding pin writes: `handle_output` is
evaluated at the timestamps `t0 + 1, ..., t0 + m`; the result is the record
after the last tick and the pin writes with the timestamp of their tick. -/
def run_output (r : ZtlDigitalOutput) (t0 : Nat) : Nat → ZtlDigitalOutput × List (Nat × Bool)
  | 0 => (r, [])
  | m + 1 =>
    let prev := run_output r t0 m
    let res := handle_output prev.1 (t0 + (m + 1)) none
    (res.out, prev.2 ++ res.writes.map (fun v => (t0 + (m + 1), v)))

/-! ## digital_input.c -/

/-- Event kinds `enum ZtlDigitalInputEventType`. -/
inductive ZtlDigitalInputEventType where
  | CHANGE_STATE_TO_ACTIVE
  | CHANGE_STATE_TO_INACTIVE
  | CHANGE_STATE_TO_ACTIVE_DEBOUNCED
  | CHANGE_STATE_TO_INACTIVE_DEBOUNCED
  | ACTIVE_DURATION
  | INACTIVE_DURATION
  deriving DecidableEq, Repr

/-- Button signal `enum ZtlButtonState`. -/
inductive ZtlButtonState where
  | NONE
  | PUSHED
  | CLUMPED
  deriving DecidableEq, Repr

/-- The six subscription predicates `struct ZtlDigitalInputEventConditions`. -/
structure ZtlDigitalInputEventConditions where
  change_state_to_active : Bool
  change_state_to_inactive : Bool
  change_state_to_active_debounced : Bool
  change_state_to_inactive_debounced : Bool
  active_state_duration : Nat
  inactive_state_duration : Nat
  deriving DecidableEq, Repr

/-- A subscriber slot `struct ZtlDigitalInputCallbackDescriptor`; the callback
pointer is `none` when it is `NULL`, else the identity of the function. -/
structure ZtlDigitalInputCallbackDescriptor where
  callback : Option Nat
  conditions : ZtlDigitalInputEventConditions
  arg : Nat
  deriving DecidableEq, Repr

/-- The record `struct ZtlDigitalInput`; the length of `callback_descriptors`
is `CONFIG_ZTL_DIGITAL_INPUT_MAX_SUBSCRIBERS_COUNT`. -/
structure ZtlDigitalInput where
  gpio : GpioDtSpec
  debounce_duration_ms : Nat
  clump_duration_ms : Nat
  active_level : ZtlLevel
  callback_descriptors : List ZtlDigitalInputCallbackDescriptor
  prev_state : Bool
  prev_state_debounced : Bool
  is_state_changed : Bool
  is_state_changed_debounced : Bool
  is_state_changed_debounced_button : Bool
  tl_state_change : Nat
  tl_handling : Nat
  is_subs_called_for_duration : Bool
  deriving DecidableEq, Repr

/-- One execution of `call_subs`: slot index, callback, event and argument. -/
structure SubsCall where
  slot : Nat
  callback : Nat
  event : ZtlDigitalInputEventType
  arg : Nat
  deriving DecidableEq, Repr

/-- First loop of `handle_input` (lines 45-54), from slot `i` on. -/
def handle_input_loop_raw (new_state : Bool) :
    Nat → List ZtlDigitalInputCallbackDescriptor → List SubsCall
  | _, [] => []
  | i, cb_descr :: rest =>
    match cb_descr.callback with
    | some cb =>
      if new_state && cb_descr.conditions.change_state_to_active then
        ⟨i, cb, ZtlDigitalInputEventType.CHANGE_STATE_TO_ACTIVE, cb_descr.arg⟩ ::
          handle_input_loop_raw new_state (i + 1) rest
      else if !new_state && cb_descr.conditions.change_state_to_inactive then
        ⟨i, cb, ZtlDigitalInputEventType.CHANGE_STATE_TO_INACTIVE, cb_descr.arg⟩ ::
          handle_input_loop_raw new_state (i + 1) rest
      else handle_input_loop_raw new_state (i + 1) rest
    | none => handle_input_loop_raw new_state (i + 1) rest

/-- Second loop of `handle_input` (lines 65-74), from slot `i` on. -/
def handle_input_loop_debounced (prev_state : Bool) :
    Nat → List ZtlDigitalInputCallbackDescriptor → List SubsCall
  | _, [] => []
  | i, cb_descr :: rest =>
    match cb_descr.callback with
    | some cb =>
      if prev_state && cb_descr.conditions.change_state_to_active_debounced then
        ⟨i, cb, ZtlDigitalInputEventType.CHANGE_STATE_TO_ACTIVE_DEBOUNCED, cb_descr.arg⟩ ::
          handle_input_loop_debounced prev_state (i + 1) rest
      else if !prev_state && cb_descr.conditions.change_state_to_inactive_debounced then
        ⟨i, cb, ZtlDigitalInputEventType.CHANGE_STATE_TO_INACTIVE_DEBOUNCED, cb_descr.arg⟩ ::
          handle_input_loop_debounced prev_state (i + 1) rest
      else handle_input_loop_debounced prev_state (i + 1) rest
    | none => handle_input_loop_debounced prev_state (i + 1) rest

/-- Third loop of `handle_input` (lines 80-98), from slot `i` on; `fired` is
the current value of `is_subs_called_for_duration`, which the loop reads and
writes. Returns the final value of the flag and the calls made. -/
def handle_input_loop_duration (prev_state : Bool) (level_duration : Nat) :
    Nat → List ZtlDigitalInputCallbackDescriptor → Bool → Bool × List SubsCall
  | _, [], fired => (fired, [])
  | i, cb_descr :: rest, fired =>
    match cb_descr.callback with
    | some cb =>
      let active_dur_cond := cb_descr.conditions.active_state_duration
      let inactive_dur_cond := cb_descr.conditions.inactive_state_duration
      let is_active_duration_check := prev_state && decide (active_dur_cond ≠ 0) && fired
      let is_inactive_duration_check := !prev_state && decide (inactive_dur_cond ≠ 0) && fired
      if is_active_duration_check && decide (level_duration ≥ active_dur_cond) then
        let r := handle_input_loop_duration prev_state level_duration (i + 1) rest true
        (r.1, ⟨i, cb, ZtlDigitalInputEventType.ACTIVE_DURATION, cb_descr.arg⟩ :: r.2)
      else if is_inactive_duration_check && decide (level_duration ≥ inactive_dur_cond) then
        let r := handle_input_loop_duration prev_state level_duration (i + 1) rest true
        (r.1, ⟨i, cb, ZtlDigitalInputEventType.INACTIVE_DURATION, cb_descr.arg⟩ :: r.2)
      else handle_input_loop_duration prev_state level_duration (i + 1) rest fired
    | none => handle_input_loop_duration prev_state level_duration (i + 1) rest fired

/-- One evaluation `handle_input(self, now)`; `new_state` is the sampled raw
value. Returns the record afterwards and the subscriber calls in order. -/
def handle_input (self : ZtlDigitalInput) (new_state : Bool) (now : Nat) :
    ZtlDigitalInput × List SubsCall :=
  let s0 := { self with tl_handling := now }
  if new_state ≠ s0.prev_state then
    let s1 := { s0 with tl_state_change := now, is_state_changed := true,
                        is_subs_called_for_duration := false }
    let calls := handle_input_loop_raw new_state 0 s1.callback_descriptors
    ({ s1 with prev_state := new_state }, calls)
  else
    let level_duration := (now + U64 - s0.tl_state_change) % U64
    let deb : ZtlDigitalInput × List SubsCall :=
      if level_duration ≥ s0.debounce_duration_ms then
        if s0.prev_state_debounced ≠ s0.prev_state then
          let s1 := { s0 with prev_state_debounced := s0.prev_state,
                              is_state_changed_debounced := true,
                              is_state_changed_debounced_button := true }
          let calls := handle_input_loop_debounced s1.prev_state 0 s1.callback_descriptors
          ({ s1 with prev_state_debounced := s1.prev_state }, calls)
        else (s0, [])
      else (s0, [])
    let dur := handle_input_loop_duration deb.1.prev_state level_duration 0
      deb.1.callback_descriptors deb.1.is_subs_called_for_duration
    ({ deb.1 with is_subs_called_for_duration := dur.1 }, deb.2 ++ dur.2)

/-- The catch-up `handle_if_needed(self)`; `now` is the value of
`k_uptime_get()`, `new_state` the raw sample read if an evaluation happens. -/
def handle_if_needed (self : ZtlDigitalInput) (new_state : Bool) (now : Nat) :
    ZtlDigitalInput × List SubsCall :=
  if self.tl_handling ≠ now then handle_input self new_state now else (self, [])

/-- Outcome of a consuming read: record afterwards, `*is_changed`, `*state`, and
the subscriber calls of the catch-up. -/
structure ChangedResult where
  self : ZtlDigitalInput
  is_changed : Bool
  state : Bool
  calls : List SubsCall
  deriving DecidableEq, Repr

/-- The query `ztl_digital_input__is_state_changed` with non-null arguments. -/
def ztl_digital_input__is_state_changed (self : ZtlDigitalInput) (new_state : Bool)
    (now : Nat) : ChangedResult :=
  let h := handle_if_needed self new_state now
  { self := { h.1 with is_state_changed := false },
    is_changed := h.1.is_state_changed,
    state := h.1.prev_state,
    calls := h.2 }

/-- The query `ztl_digital_input__is_state_changed_debounced` with non-null
arguments. -/
def ztl_digital_input__is_state_changed_debounced (self : ZtlDigitalInput) (new_state : Bool)
    (now : Nat) : ChangedResult :=
  let h := handle_if_needed self new_state now
  { self := { h.1 with is_state_changed_debounced := false },
    is_changed := h.1.is_state_changed_debounced,
    state := h.1.prev_state_debounced,
    calls := h.2 }

/-- Outcome of `ztl_digital_input__state_button`. -/
structure ButtonResult where
  self : ZtlDigitalInput
  state : ZtlButtonState
  calls : List SubsCall
  deriving DecidableEq, Repr

/-- The query `ztl_digital_input__state_button` with non-null arguments; `now`
is the clock value read by the catch-up and `now2` the one read at line 246. -/
def ztl_digital_input__state_button (self : ZtlDigitalInput) (new_state : Bool)
    (now now2 : Nat) : ButtonResult :=
  let h := handle_if_needed self new_state now
  if h.1.is_state_changed_debounced_button && h.1.prev_state_debounced then
    ⟨{ h.1 with is_state_changed_debounced_button := false }, ZtlButtonState.PUSHED, h.2⟩
  else if h.1.prev_state then
    let state_dur := (now2 + U64 - h.1.tl_state_change) % U64
    if state_dur ≥ h.1.clump_duration_ms then ⟨h.1, ZtlButtonState.CLUMPED, h.2⟩
    else ⟨h.1, ZtlButtonState.NONE, h.2⟩
  else ⟨h.1, ZtlButtonState.NONE, h.2⟩

/-- The record that `ztl_digital_input__init` leaves behind on success:
`memset` to zero (`slots` empty descriptors), the pin reference,
`DEFAULT_DEBOUNCE_DURATION_MS = 100` and the polarity read from the pin. -/
def input_init_record (gpio : GpioDtSpec) (active_level : ZtlLevel) (slots : Nat) :
    ZtlDigitalInput :=
  { gpio := gpio, debounce_duration_ms := 100, clump_duration_ms := 0,
    active_level := active_level,
    callback_descriptors := List.replicate slots ⟨none, ⟨false, false, false, false, 0, 0⟩, 0⟩,
    prev_state := false, prev_state_debounced := false, is_state_changed := false,
    is_state_changed_debounced := false, is_state_changed_debounced_button := false,
    tl_state_change := 0, tl_handling := 0, is_subs_called_for_duration := false }

/-- A sequence of evaluations `handle_input(sample, now)`, oldest first; the
calls are returned with the timestamp of their evaluation. -/
def run_input (s : ZtlDigitalInput) : List (Bool × Nat) → ZtlDigitalInput × List (Nat × SubsCall)
  | [] => (s, [])
  | (v, now) :: rest =>
    let h := handle_input s v now
    let r := run_input h.1 rest
    (r.1, h.2.map (fun c => (now, c)) ++ r.2)

/-! ## Vocabulary of the statements and concrete records -/

/-- An input whose raw level has been active since `t = 5` and is not yet
debounced. -/
def c1_rec : ZtlDigitalInput :=
  { input_init_record ⟨0, 3⟩ ZtlLevel.HIGH 1 with prev_state := true, tl_state_change := 5 }

/-- The debounced event of a direction (`true`: to active). -/
def debounced_event (active : Bool) : ZtlDigitalInputEventType :=
  if active then ZtlDigitalInputEventType.CHANGE_STATE_TO_ACTIVE_DEBOUNCED
  else ZtlDigitalInputEventType.CHANGE_STATE_TO_INACTIVE_DEBOUNCED

/-- The debounced condition of a subscriber that matches a direction. -/
def debounced_condition (active : Bool) (c : ZtlDigitalInputEventConditions) : Bool :=
  if active then c.change_state_to_active_debounced else c.change_state_to_inactive_debounced

/-- Raw samples of the bounce scenario: high from `t = 0`, low from `t = 50`,
high again from `t = 60`. -/
def bounce_sample (t : Nat) : Bool := decide (t < 50) || decide (60 ≤ t)

/-- One evaluation per millisecond at `t = 0, ..., n - 1` on the bounce samples. -/
def bounce_evals (n : Nat) : List (Bool × Nat) :=
  (List.range n).map (fun t => (bounce_sample t, t))

/-- A freshly initialised input (debounce 100 ms) with one subscriber on all
four edge conditions. -/
def c2_rec : ZtlDigitalInput :=
  { input_init_record ⟨0, 3⟩ ZtlLevel.HIGH 2 with
    callback_descriptors :=
      [⟨some 7, ⟨true, true, true, true, 0, 0⟩, 42⟩, ⟨none, ⟨false, false, false, false, 0, 0⟩, 0⟩] }

/-- The record `c2_rec` with raw level active since `t = 60`, not yet debounced. -/
def c2_pending : ZtlDigitalInput :=
  { c2_rec with prev_state := true, tl_state_change := 60, tl_handling := 159 }

/-- The record expected `k` full periods and `j` further milliseconds into a
pulse train of `n` cycles started at `t0` on the record `r`: the phase is high
during the first `pulse_on_ms` milliseconds of a period and low afterwards. -/
def pulse_train_record (r : ZtlDigitalOutput) (n : Int) (t0 k j : Nat) : ZtlDigitalOutput :=
  { r with
    pulse_count := n - k,
    pulse_state := decide (j < r.pulse_on_ms),
    hw_state := decide (j < r.pulse_on_ms),
    tl_pulse_ms := t0 + k * r.pulse_period_ms + (if j < r.pulse_on_ms then 0 else r.pulse_on_ms) }

/-- The pin writes of `k` complete cycles that are each followed by a further
cycle: low at the end of the on-time, high at the end of the period. -/
def pulse_cycle_writes (t0 period on_ms : Nat) : Nat → List (Nat × Bool)
  | 0 => []
  | k + 1 => pulse_cycle_writes t0 period on_ms k ++
      [(t0 + k * period + on_ms, false), (t0 + (k + 1) * period, true)]

/-- The pin writes expected from the ticks up to `k` full periods and `j`
further milliseconds into a pulse train. -/
def pulse_train_writes (r : ZtlDigitalOutput) (t0 k j : Nat) : List (Nat × Bool) :=
  pulse_cycle_writes t0 r.pulse_period_ms r.pulse_on_ms k ++
    (if r.pulse_on_ms ≤ j then [(t0 + k * r.pulse_period_ms + r.pulse_on_ms, false)] else [])

/-- A freshly initialised input with one subscriber that asks for the
active-duration event after 10 ms and the inactive-duration event after 20 ms. -/
def c6_rec : ZtlDigitalInput :=
  { input_init_record ⟨0, 3⟩ ZtlLevel.HIGH 2 with
    callback_descriptors :=
      [⟨some 7, ⟨false, false, false, false, 10, 20⟩, 42⟩,
       ⟨none, ⟨false, false, false, false, 0, 0⟩, 0⟩] }

/-- The record `c6_rec` after the raw level went active at `t = 1`: the
duration-fired flag is clear. -/
def c6_active : ZtlDigitalInput := (handle_input c6_rec true 1).1

/-- Number of duration events (active or inactive) that a trace delivers to
the subscriber slot `i`. -/
def duration_calls_to (i : Nat) (trace : List (Nat × SubsCall)) : Nat :=
  (trace.filter (fun c => decide (c.2.slot = i) &&
    (decide (c.2.event = ZtlDigitalInputEventType.ACTIVE_DURATION) ||
     decide (c.2.event = ZtlDigitalInputEventType.INACTIVE_DURATION)))).length

/-- A step of an interleaving on one input: an evaluation `handle_input(sample,
now)` or a read `state_button` (sample and clock of its catch-up, clock of its
duration computation). -/
inductive ButtonAction where
  | eval (v : Bool) (now : Nat)
  | read (v : Bool) (now now2 : Nat)
  deriving DecidableEq, Repr

/-- What an interleaving shows of the button signal: a rising debounced edge
(the debounced state goes from inactive to active) or a read that returns
`PUSHED`. -/
inductive ButtonObs where
  | rising
  | pushed
  deriving DecidableEq, Repr

/-- The observations of an interleaving, oldest first; the catch-up of a read
comes before its result. -/
def run_button (s : ZtlDigitalInput) : List ButtonAction → List ButtonObs
  | [] => []
  | ButtonAction.eval v now :: rest =>
    let s1 := (handle_input s v now).1
    (if s.prev_state_debounced = false ∧ s1.prev_state_debounced = true
      then [ButtonObs.rising] else []) ++ run_button s1 rest
  | ButtonAction.read v now now2 :: rest =>
    let s1 := (handle_if_needed s v now).1
    let r := ztl_digital_input__state_button s v now now2
    (if s.prev_state_debounced = false ∧ s1.prev_state_debounced = true
      then [ButtonObs.rising] else []) ++
    (if r.state = ZtlButtonState.PUSHED then [ButtonObs.pushed] else []) ++
    run_button r.self rest

/-- Every `pushed` is preceded by a `rising` that no earlier `pushed` has used;
`armed` tells whether such a `rising` is available at the start. -/
def pushes_follow_rising : Bool → List ButtonObs → Bool
  | _, [] => true
  | _, ButtonObs.rising :: rest => pushes_follow_rising true rest
  | armed, ButtonObs.pushed :: rest => armed && pushes_follow_rising false rest

/-- An input on which a debounced push is pending and the raw level has been
active for 500 ms, with a clump threshold of 200 ms. -/
def c9_rec : ZtlDigitalInput :=
  { input_init_record ⟨0, 3⟩ ZtlLevel.HIGH 1 with
    clump_duration_ms := 200, prev_state := true, prev_state_debounced := true,
    is_state_changed_debounced := true, is_state_changed_debounced_button := true,
    tl_state_change := 1000, tl_handling := 1500 }

/-- A control call or a poller tick on one output, pin writes succeeding. -/
inductive OutputOp where
  | set (state : Bool)
  | start_blink (pulse_count : Int) (uptime : Nat)
  | config_blink (pulse_period_ms pulse_on_ms : Nat)
  | stop_blink
  | tick (now : Nat)
  deriving DecidableEq, Repr

/-- The effect of one `OutputOp`. -/
def apply_output_op (r : ZtlDigitalOutput) : OutputOp → OutputResult
  | OutputOp.set state => ztl_digital_output__set r state none
  | OutputOp.start_blink pulse_count uptime =>
    ztl_digital_output__start_blink r pulse_count uptime none
  | OutputOp.config_blink pulse_period_ms pulse_on_ms =>
    ztl_digital_output__config_blink r pulse_period_ms pulse_on_ms
  | OutputOp.stop_blink => ztl_digital_output__stop_blink r none
  | OutputOp.tick now => handle_output r now none

/-- A sequence of operations, oldest first: the record afterwards and all pin
writes in order. -/
def run_output_ops (r : ZtlDigitalOutput) : List OutputOp → ZtlDigitalOutput × List Bool
  | [] => (r, [])
  | op :: rest =>
    let a := apply_output_op r op
    let b := run_output_ops a.out rest
    (b.1, a.writes ++ b.2)

/-! ## Registries, init, subscribe and the input poller -/

/-- Memory of caller-owned objects, addressed by pointer value; a write to the
object at `p`. -/
def mem_write {α : Type} (mem : Nat → α) (p : Nat) (v : α) : Nat → α :=
  fun q => if q = p then v else mem q

/-- Index of the first `NULL` slot of a registry array, if there is one. -/
def first_free_slot : List (Option Nat) → Option Nat
  | [] => none
  | none :: _ => some 0
  | some _ :: rest => (first_free_slot rest).map (fun i => i + 1)

/-- The input stack: the array `g_inputs` (its length is
`CONFIG_ZTL_DIGITAL_INPUT_MAX_COUNT`; a slot is `none` when `NULL`, else the
pointer it holds) and the memory of the input objects. -/
structure InputRegistry where
  g_inputs : List (Option Nat)
  mem : Nat → ZtlDigitalInput

/-- First loop of `ztl_digital_input__init` (lines 131-135): some occupied slot
references a pin with the same port and pin number. -/
def input_pin_registered (w : InputRegistry) (gpio : GpioDtSpec) : Bool :=
  w.g_inputs.any (fun slot =>
    match slot with
    | some p => decide ((w.mem p).gpio.port = gpio.port) && decide ((w.mem p).gpio.pin = gpio.pin)
    | none => false)

/-- The call `ztl_digital_input__init(self, gpio)` with non-null arguments.
`slots` is `CONFIG_ZTL_DIGITAL_INPUT_MAX_SUBSCRIBERS_COUNT`; `get_config` is the
verdict of `gpio_pin_get_config_dt` and `active_high` the value of
`gpio_cfg & GPIO_ACTIVE_HIGH` it delivers; `configure` is the verdict of
`gpio_pin_configure_dt` (`none`: success, `some e`: `TRY_EX` leaves with `e`). -/
def ztl_digital_input__init (w : InputRegistry) (self : Nat) (gpio : GpioDtSpec) (slots : Nat)
    (get_config : Option Int) (active_high : Bool) (configure : Option Int) :
    Rc × InputRegistry :=
  if input_pin_registered w gpio then (Rc.ER_ALREADY, w)
  else
    match first_free_slot w.g_inputs with
    | none => (Rc.ER_NO_MEM, w)
    | some i =>
      let g1 := w.g_inputs.set i (some self)
      let self0 := input_init_record gpio ZtlLevel.LOW slots
      match get_config with
      | some e => (Rc.hw e, ⟨g1, mem_write w.mem self self0⟩)
      | none =>
        let self1 := { self0 with
          active_level := if active_high then ZtlLevel.HIGH else ZtlLevel.LOW }
        match configure with
        | some e => (Rc.hw e, ⟨g1, mem_write w.mem self self1⟩)
        | none => (Rc.ok, ⟨g1, mem_write w.mem self self1⟩)

/-- The output stack: the array `g_outputs` (its length is
`CONFIG_ZTL_DIGITAL_OUTPUT_MAX_COUNT`) and the memory of the output objects. -/
structure OutputRegistry where
  g_outputs : List (Option Nat)
  mem : Nat → ZtlDigitalOutput

/-- First loop of `ztl_digital_output__init` (lines 82-86). -/
def output_pin_registered (w : OutputRegistry) (gpio : GpioDtSpec) : Bool :=
  w.g_outputs.any (fun slot =>
    match slot with
    | some p => decide ((w.mem p).gpio.port = gpio.port) && decide ((w.mem p).gpio.pin = gpio.pin)
    | none => false)

/-- The call `ztl_digital_output__init(self, gpio)` with non-null arguments;
`configure` and `pin` are the verdicts of `gpio_pin_configure_dt` and
`gpio_pin_set_dt`. The third component lists the values handed to
`gpio_pin_set_dt`. -/
def ztl_digital_output__init (w : OutputRegistry) (self : Nat) (gpio : GpioDtSpec)
    (configure : Option Int) (pin : Option Int) : Rc × OutputRegistry × List Bool :=
  if output_pin_registered w gpio then (Rc.ER_ALREADY, w, [])
  else
    match first_free_slot w.g_outputs with
    | none => (Rc.ER_NO_MEM, w, [])
    | some i =>
      let g1 := w.g_outputs.set i (some self)
      let self0 := output_init_record gpio
      match configure with
      | some e => (Rc.hw e, ⟨g1, mem_write w.mem self self0⟩, [])
      | none =>
        match pin with
        | some e => (Rc.hw e, ⟨g1, mem_write w.mem self self0⟩, [self0.state])
        | none => (Rc.ok, ⟨g1, mem_write w.mem self self0⟩, [self0.state])

/-- The loop of `ztl_digital_input__subscribe` (lines 336-344): the descriptors
after the first slot that is free or holds `cb` has been overwritten, or `none`
when there is no such slot. -/
def subscribe_loop (conditions : ZtlDigitalInputEventConditions) (cb : Option Nat) (arg : Nat) :
    List ZtlDigitalInputCallbackDescriptor → Option (List ZtlDigitalInputCallbackDescriptor)
  | [] => none
  | d :: rest =>
    if none = d.callback ∨ cb = d.callback then some (⟨cb, conditions, arg⟩ :: rest)
    else (subscribe_loop conditions cb arg rest).map (fun ds => d :: ds)

/-- The call `ztl_digital_input__subscribe(self, conditions, cb, arg)` with
non-null `self` and `conditions`. -/
def ztl_digital_input__subscribe (self : ZtlDigitalInput)
    (conditions : ZtlDigitalInputEventConditions) (cb : Option Nat) (arg : Nat) :
    Rc × ZtlDigitalInput :=
  match subscribe_loop conditions cb arg self.callback_descriptors with
  | some ds => (Rc.ok, { self with callback_descriptors := ds })
  | none => (Rc.ER_NO_MEM, self)

/-- A sequence of `subscribe` calls, oldest first, whatever their results. -/
def run_subscribe (s : ZtlDigitalInput) :
    List (ZtlDigitalInputEventConditions × Option Nat × Nat) → ZtlDigitalInput
  | [] => s
  | (conditions, cb, arg) :: rest =>
    run_subscribe (ztl_digital_input__subscribe s conditions cb arg).2 rest

/-- No two slots hold the same non-null callback. -/
def callbacks_distinct (ds : List ZtlDigitalInputCallbackDescriptor) : Prop :=
  ∀ (i j : Nat) (d e : ZtlDigitalInputCallbackDescriptor) (cb : Nat),
    ds[i]? = some d → ds[j]? = some e →
    d.callback = some cb → e.callback = some cb → i = j

/-- What one pass of the poller did: the stack afterwards, the slot indices it
evaluated, and the subscriber calls with their slot index. -/
structure PollResult where
  world : InputRegistry
  evaluated : List Nat
  calls : List (Nat × SubsCall)

/-- The `for` loop of `input_handler` (lines 106-110) from index `i` for `count`
more iterations; `sample p` is the raw value read for the object at `p`. The
result is `none` when the loop reads `g_inputs` at an index outside the array. -/
def input_handler_loop (sample : Nat → Bool) (now : Nat) :
    Nat → Nat → InputRegistry → Option PollResult
  | _, 0, w => some ⟨w, [], []⟩
  | i, count + 1, w =>
    match w.g_inputs[i]? with
    | none => none
    | some none => input_handler_loop sample now (i + 1) count w
    | some (some p) =>
      if (w.mem p).tl_handling ≠ now then
        let h := handle_input (w.mem p) (sample p) now
        match input_handler_loop sample now (i + 1) count ⟨w.g_inputs, mem_write w.mem p h.1⟩ with
        | none => none
        | some r => some ⟨r.world, i :: r.evaluated, h.2.map (fun c => (i, c)) ++ r.calls⟩
      else input_handler_loop sample now (i + 1) count w

/-- One pass of `input_handler` at the timestamp `now`: the loop bound is
`CONFIG_ZTL_DIGITAL_OUTPUT_MAX_COUNT`, as in the source. -/
def input_handler (output_max_count : Nat) (w : InputRegistry) (sample : Nat → Bool) (now : Nat) :
    Option PollResult :=
  input_handler_loop sample now 0 output_max_count w

/-- The raw dispatch as the specification words it: each occupied descriptor
whose raw condition for the new direction is set gets that raw event once, in
slot order, counted from slot `i`. -/
def raw_dispatch_spec (new_state : Bool) (i : Nat)
    (ds : List ZtlDigitalInputCallbackDescriptor) : List SubsCall :=
  (ds.enumFrom i).filterMap (fun p =>
    match p.2.callback with
    | some cb =>
      if (if new_state then p.2.conditions.change_state_to_active
          else p.2.conditions.change_state_to_inactive) = true
      then some ⟨p.1, cb,
        if new_state then ZtlDigitalInputEventType.CHANGE_STATE_TO_ACTIVE
        else ZtlDigitalInputEventType.CHANGE_STATE_TO_INACTIVE, p.2.arg⟩
      else none
    | none => none)

/-- Guarded evaluations (`handle_if_needed`, or a poller visit) in sequence:
the values of `tl_handling` after each of them. -/
def tl_handling_trace (s : ZtlDigitalInput) : List (Bool × Nat) → List Nat
  | [] => []
  | (v, now) :: rest =>
    (handle_if_needed s v now).1.tl_handling ::
      tl_handling_trace (handle_if_needed s v now).1 rest

/-- An input registry of capacity two that is full: the object at pointer `p`
is registered for pin `p` of port 0. -/
def c12_inputs : InputRegistry :=
  ⟨[some 0, some 1], fun p => input_init_record ⟨0, p⟩ ZtlLevel.LOW 1⟩

/-- An empty input registry of capacity two over memory that was never
initialised. -/
def c13_inputs : InputRegistry :=
  ⟨[none, none], fun _ => input_init_record ⟨9, 9⟩ ZtlLevel.LOW 1⟩

/-- An empty output registry of capacity two over memory that was never
initialised. -/
def c13_outputs : OutputRegistry :=
  ⟨[none, none], fun _ => output_init_record ⟨9, 9⟩⟩

/-- Shape of a descriptor array that `subscribe` maintains: a slot that is
free is followed by free slots only, and the callback of an occupied slot does
not occur in a later slot. -/
def descriptors_packed : List ZtlDigitalInputCallbackDescriptor → Prop
  | [] => True
  | d :: rest =>
    match d.callback with
    | none => ∀ e ∈ rest, e.callback = none
    | some cb => (∀ e ∈ rest, e.callback ≠ some cb) ∧ descriptors_packed rest

/-- A freshly initialised input with three subscriber slots on which the
callbacks 7 and 8 have subscribed. -/
def c14_rec : ZtlDigitalInput :=
  run_subscribe (input_init_record ⟨0, 3⟩ ZtlLevel.HIGH 3)
    [(⟨true, false, false, false, 0, 0⟩, some 7, 1), (⟨false, true, false, false, 0, 0⟩, some 8, 2)]

/-- Duration of the phase in progress as `handle_output` computes it (the local
`period`): the on-time in the high phase, `pulse_period_ms - pulse_on_ms`
truncated to `uint16_t` in the low phase. -/
def pulse_phase_ms (r : ZtlDigitalOutput) : Nat :=
  if r.pulse_state then r.pulse_on_ms else (r.pulse_period_ms + U16 - r.pulse_on_ms) % U16

/-- A freshly initialised output on which an unbounded pulse train was started
at `t = 1000`. -/
def c17_rec : ZtlDigitalOutput :=
  (ztl_digital_output__start_blink (output_init_record ⟨0, 1⟩) (-1) 1000 none).out

/-- The setter `ztl_digital_input__set_clump_duration(self, ms)` on a non-null
record. -/
def ztl_digital_input__set_clump_duration (self : ZtlDigitalInput) (ms : Nat) :
    Rc × ZtlDigitalInput :=
  if ¬ (ms > 0) then (Rc.ER_INVAL, self)
  else (Rc.ok, { self with clump_duration_ms := ms })

/-- A pulse train of three cycles started at `t = 1000` on a freshly
initialised output (period 500 ms, on-time 250 ms). -/
def c22_rec : ZtlDigitalOutput :=
  (ztl_digital_output__start_blink (output_init_record ⟨0, 1⟩) 3 1000 none).out

theorem loop_raw_event (v : Bool) (ds : List ZtlDigitalInputCallbackDescriptor) :
    ∀ (i : Nat) (c : SubsCall), c ∈ handle_input_loop_raw v i ds →
      c.event = (if v then ZtlDigitalInputEventType.CHANGE_STATE_TO_ACTIVE
                 else ZtlDigitalInputEventType.CHANGE_STATE_TO_INACTIVE) := by
  induction ds with
  | nil => intro i c h; simp [handle_input_loop_raw] at h
  | cons d rest ih =>
    intro i c h
    unfold handle_input_loop_raw at h
    cases hcb : d.callback with
    | none => rw [hcb] at h; exact ih _ _ h
    | some cb =>
      rw [hcb] at h
      cases v <;> simp at h <;> split at h <;>
        first
        | exact ih _ _ h
        | (rcases List.mem_cons.1 h with h1 | h1
           · subst h1; rfl
           · exact ih _ _ h1)

theorem loop_debounced_event (p : Bool) (ds : List ZtlDigitalInputCallbackDescriptor) :
    ∀ (i : Nat) (c : SubsCall), c ∈ handle_input_loop_debounced p i ds →
      c.event = (if p then ZtlDigitalInputEventType.CHANGE_STATE_TO_ACTIVE_DEBOUNCED
                 else ZtlDigitalInputEventType.CHANGE_STATE_TO_INACTIVE_DEBOUNCED) := by
  induction ds with
  | nil => intro i c h; simp [handle_input_loop_debounced] at h
  | cons d rest ih =>
    intro i c h
    unfold handle_input_loop_debounced at h
    cases hcb : d.callback with
    | none => rw [hcb] at h; exact ih _ _ h
    | some cb =>
      rw [hcb] at h
      cases p <;> simp at h <;> split at h <;>
        first
        | exact ih _ _ h
        | (rcases List.mem_cons.1 h with h1 | h1
           · subst h1; rfl
           · exact ih _ _ h1)

theorem loop_duration_not_fired (p : Bool) (d : Nat) (ds : List ZtlDigitalInputCallbackDescriptor) :
    ∀ (i : Nat), handle_input_loop_duration p d i ds false = (false, []) := by
  induction ds with
  | nil => intro i; rfl
  | cons x rest ih =>
    intro i
    unfold handle_input_loop_duration
    cases hcb : x.callback with
    | none => simpa using ih _
    | some cb => simpa using ih _

theorem loop_duration_event (p : Bool) (d : Nat) (ds : List ZtlDigitalInputCallbackDescriptor) :
    ∀ (i : Nat) (f : Bool) (c : SubsCall), c ∈ (handle_input_loop_duration p d i ds f).2 →
      c.event = (if p then ZtlDigitalInputEventType.ACTIVE_DURATION
                 else ZtlDigitalInputEventType.INACTIVE_DURATION) := by
  induction ds with
  | nil => intro i f c h; simp [handle_input_loop_duration] at h
  | cons x rest ih =>
    intro i f c h
    unfold handle_input_loop_duration at h
    cases hcb : x.callback with
    | none => rw [hcb] at h; exact ih _ _ _ h
    | some cb =>
      rw [hcb] at h
      cases p <;> simp at h <;> split at h <;>
        first
        | exact ih _ _ _ h
        | (rcases List.mem_cons.1 h with h1 | h1
           · subst h1; rfl
           · exact ih _ _ _ h1)


theorem handle_input_change (s : ZtlDigitalInput) (v : Bool) (now : Nat)
    (h : v ≠ s.prev_state) :
    handle_input s v now =
      ({ s with tl_handling := now, tl_state_change := now, is_state_changed := true,
                is_subs_called_for_duration := false, prev_state := v },
       handle_input_loop_raw v 0 s.callback_descriptors) := by
  simp [handle_input, h]

theorem handle_input_quiet (s : ZtlDigitalInput) (v : Bool) (now : Nat)
    (h : v = s.prev_state)
    (hq : (now + U64 - s.tl_state_change) % U64 < s.debounce_duration_ms ∨
          s.prev_state_debounced = s.prev_state) :
    handle_input s v now =
      ({ s with tl_handling := now,
                is_subs_called_for_duration :=
                  (handle_input_loop_duration s.prev_state
                    ((now + U64 - s.tl_state_change) % U64) 0 s.callback_descriptors
                    s.is_subs_called_for_duration).1 },
       (handle_input_loop_duration s.prev_state
          ((now + U64 - s.tl_state_change) % U64) 0 s.callback_descriptors
          s.is_subs_called_for_duration).2) := by
  rcases hq with hq | hq
  · simp [handle_input, h, Nat.not_le.2 hq]
  · simp [handle_input, h, hq]

theorem handle_input_commit (s : ZtlDigitalInput) (v : Bool) (now : Nat)
    (h : v = s.prev_state)
    (hd : s.debounce_duration_ms ≤ (now + U64 - s.tl_state_change) % U64)
    (hne : s.prev_state_debounced ≠ s.prev_state) :
    handle_input s v now =
      ({ s with tl_handling := now, prev_state_debounced := s.prev_state,
                is_state_changed_debounced := true,
                is_state_changed_debounced_button := true,
                is_subs_called_for_duration :=
                  (handle_input_loop_duration s.prev_state
                    ((now + U64 - s.tl_state_change) % U64) 0 s.callback_descriptors
                    s.is_subs_called_for_duration).1 },
       handle_input_loop_debounced s.prev_state 0 s.callback_descriptors ++
       (handle_input_loop_duration s.prev_state
          ((now + U64 - s.tl_state_change) % U64) 0 s.callback_descriptors
          s.is_subs_called_for_duration).2) := by
  simp [handle_input, h, hd, hne]

theorem wrap_sub (a b : Nat) (h1 : a ≤ b) (h2 : b < U64) : (b + U64 - a) % U64 = b - a := by
  unfold U64 at *
  omega

/-- A run of evaluations inside the debounce window of a raw change keeps the
debounced view. -/
theorem run_input_hold_short (rest : List (Bool × Nat)) :
    ∀ (s : ZtlDigitalInput) (t0 : Nat), s.tl_state_change = t0 →
      (∀ e ∈ rest, e.1 = s.prev_state ∧ t0 ≤ e.2 ∧ e.2 < t0 + s.debounce_duration_ms ∧ e.2 < U64) →
      (run_input s rest).1.prev_state_debounced = s.prev_state_debounced ∧
      (run_input s rest).1.is_state_changed_debounced = s.is_state_changed_debounced ∧
      (run_input s rest).1.is_state_changed_debounced_button =
        s.is_state_changed_debounced_button ∧
      ∀ c ∈ (run_input s rest).2,
        c.2.event ≠ ZtlDigitalInputEventType.CHANGE_STATE_TO_ACTIVE_DEBOUNCED ∧
        c.2.event ≠ ZtlDigitalInputEventType.CHANGE_STATE_TO_INACTIVE_DEBOUNCED := by
  induction rest with
  | nil => intro s t0 _ _; simp [run_input]
  | cons e rest ih =>
    intro s t0 htl hall
    obtain ⟨v, now⟩ := e
    have he := hall (v, now) (List.mem_cons_self _ _)
    simp only at he
    obtain ⟨hv, h1, h2, h3⟩ := he
    have hdur : (now + U64 - s.tl_state_change) % U64 < s.debounce_duration_ms := by
      rw [htl, wrap_sub t0 now h1 h3]; omega
    have hq := handle_input_quiet s v now hv (Or.inl hdur)
    have hrest := ih (handle_input s v now).1 t0 (by rw [hq]; exact htl)
      (by
        intro e' he'
        have := hall e' (List.mem_cons_of_mem _ he')
        rw [hq]; exact this)
    simp only [run_input]
    obtain ⟨r1, r2, r3, r4⟩ := hrest
    refine ⟨?_, ?_, ?_, ?_⟩
    · rw [r1, hq]
    · rw [r2, hq]
    · rw [r3, hq]
    · intro c hc
      rcases List.mem_append.1 hc with hc | hc
      · obtain ⟨c', hc', rfl⟩ := List.mem_map.1 hc
        rw [hq] at hc'
        have := loop_duration_event _ _ _ _ _ _ hc'
        simp only
        rw [this]
        cases s.prev_state <;> simp
      · exact r4 c hc

/-! ## C1: debounce guard -/


/-- C1: an evaluation of `handle_input` changes the debounced state, changes the
debounced-changed flag or dispatches a debounced event only if the sample
equals the recorded raw state and `now - tl_state_change` (which for
`tl_state_change <= now` is the plain difference) is at least
`debounce_duration_ms`; `tl_state_change` is set by exactly the evaluations
that observe a raw change; hence after an evaluation that observes a raw change
at `t0`, evaluations of the held level at times in `[t0, t0 + debounce)` leave
the debounced state and both debounced-changed flags as they were and dispatch
no debounced event. -/
theorem debounce_requires_steady_hold :
    (∀ (s : ZtlDigitalInput) (v : Bool) (now : Nat),
      ((handle_input s v now).1.prev_state_debounced ≠ s.prev_state_debounced ∨
       (handle_input s v now).1.is_state_changed_debounced ≠ s.is_state_changed_debounced ∨
       ∃ c ∈ (handle_input s v now).2,
         c.event = ZtlDigitalInputEventType.CHANGE_STATE_TO_ACTIVE_DEBOUNCED ∨
         c.event = ZtlDigitalInputEventType.CHANGE_STATE_TO_INACTIVE_DEBOUNCED) →
        v = s.prev_state ∧
        s.debounce_duration_ms ≤ (now + U64 - s.tl_state_change) % U64 ∧
        (s.tl_state_change ≤ now → now < U64 →
          s.tl_state_change + s.debounce_duration_ms ≤ now)) ∧
    (∀ (s : ZtlDigitalInput) (v : Bool) (now : Nat),
      (handle_input s v now).1.tl_state_change =
        if v ≠ s.prev_state then now else s.tl_state_change) ∧
    (∀ (s : ZtlDigitalInput) (v0 : Bool) (t0 : Nat) (rest : List (Bool × Nat)),
      v0 ≠ s.prev_state →
      (∀ e ∈ rest, e.1 = v0 ∧ t0 ≤ e.2 ∧ e.2 < t0 + s.debounce_duration_ms ∧ e.2 < U64) →
        (run_input s ((v0, t0) :: rest)).1.prev_state_debounced = s.prev_state_debounced ∧
        (run_input s ((v0, t0) :: rest)).1.is_state_changed_debounced =
          s.is_state_changed_debounced ∧
        (run_input s ((v0, t0) :: rest)).1.is_state_changed_debounced_button =
          s.is_state_changed_debounced_button ∧
        ∀ c ∈ (run_input s ((v0, t0) :: rest)).2,
          c.2.event ≠ ZtlDigitalInputEventType.CHANGE_STATE_TO_ACTIVE_DEBOUNCED ∧
          c.2.event ≠ ZtlDigitalInputEventType.CHANGE_STATE_TO_INACTIVE_DEBOUNCED) := by
  refine ⟨?_, ?_, ?_⟩
  · intro s v now h
    by_cases hv : v = s.prev_state
    · by_cases hq : (now + U64 - s.tl_state_change) % U64 < s.debounce_duration_ms ∨
          s.prev_state_debounced = s.prev_state
      · exfalso
        rw [handle_input_quiet s v now hv hq] at h
        rcases h with h | h | ⟨c, hc, h⟩
        · exact h rfl
        · exact h rfl
        · have := loop_duration_event _ _ _ _ _ _ hc
          rw [this] at h
          generalize s.prev_state = p at h
          cases p <;> simp at h
      · have hd : s.debounce_duration_ms ≤ (now + U64 - s.tl_state_change) % U64 := by
          by_contra hc
          exact hq (Or.inl (Nat.not_le.1 hc))
        refine ⟨hv, hd, ?_⟩
        intro h1 h2
        rw [wrap_sub _ _ h1 h2] at hd
        omega
    · exfalso
      rw [handle_input_change s v now hv] at h
      rcases h with h | h | ⟨c, hc, h⟩
      · exact h rfl
      · exact h rfl
      · have := loop_raw_event _ _ _ _ hc
        rw [this] at h
        cases v <;> simp at h
  · intro s v now
    by_cases hv : v = s.prev_state
    · simp [handle_input, hv]
      split <;> [split; skip] <;> rfl
    · rw [handle_input_change s v now hv]; simp [hv]
  · intro s v0 t0 rest hv hall
    have hc := handle_input_change s v0 t0 hv
    have hrest := run_input_hold_short rest (handle_input s v0 t0).1 t0 (by rw [hc])
      (by rw [hc]; exact hall)
    simp only [run_input]
    obtain ⟨r1, r2, r3, r4⟩ := hrest
    refine ⟨?_, ?_, ?_, ?_⟩
    · rw [r1, hc]
    · rw [r2, hc]
    · rw [r3, hc]
    · intro c hcm
      rcases List.mem_append.1 hcm with hcm | hcm
      · obtain ⟨c', hc', rfl⟩ := List.mem_map.1 hcm
        rw [hc] at hc'
        have := loop_raw_event _ _ _ _ hc'
        simp only
        rw [this]
        cases v0 <;> simp
      · exact r4 c hcm

theorem debounce_requires_steady_hold_witness :
    ((handle_input c1_rec true 105).1.prev_state_debounced ≠ c1_rec.prev_state_debounced) ∧
    (true = c1_rec.prev_state ∧
      c1_rec.debounce_duration_ms ≤ (105 + U64 - c1_rec.tl_state_change) % U64 ∧
      (c1_rec.tl_state_change ≤ 105 → 105 < U64 →
        c1_rec.tl_state_change + c1_rec.debounce_duration_ms ≤ 105)) :=
  ⟨by decide, debounce_requires_steady_hold.1 c1_rec true 105 (Or.inl (by decide))⟩

/-! ## C2: debounced commit and its dispatch -/


theorem loop_debounced_cons_none (p : Bool) (i : Nat) (x : ZtlDigitalInputCallbackDescriptor)
    (rest : List ZtlDigitalInputCallbackDescriptor) (h : x.callback = none) :
    handle_input_loop_debounced p i (x :: rest) = handle_input_loop_debounced p (i + 1) rest := by
  conv_lhs => unfold handle_input_loop_debounced
  simp [h]

theorem loop_debounced_cons_some (p : Bool) (i : Nat) (x : ZtlDigitalInputCallbackDescriptor)
    (rest : List ZtlDigitalInputCallbackDescriptor) (cb : Nat) (h : x.callback = some cb) :
    handle_input_loop_debounced p i (x :: rest) =
      if debounced_condition p x.conditions = true then
        ⟨i, cb, debounced_event p, x.arg⟩ :: handle_input_loop_debounced p (i + 1) rest
      else handle_input_loop_debounced p (i + 1) rest := by
  conv_lhs => unfold handle_input_loop_debounced
  cases p <;> simp [h, debounced_condition, debounced_event]

theorem mem_loop_debounced (p : Bool) (ds : List ZtlDigitalInputCallbackDescriptor) :
    ∀ (i : Nat) (c : SubsCall), c ∈ handle_input_loop_debounced p i ds ↔
      ∃ k d cb, ds[k]? = some d ∧ d.callback = some cb ∧
        debounced_condition p d.conditions = true ∧
        c = ⟨i + k, cb, debounced_event p, d.arg⟩ := by
  induction ds with
  | nil => intro i c; simp [handle_input_loop_debounced]
  | cons x rest ih =>
    intro i c
    have key : (∃ k d cb, (x :: rest)[k]? = some d ∧ d.callback = some cb ∧
          debounced_condition p d.conditions = true ∧
          c = ⟨i + k, cb, debounced_event p, d.arg⟩) ↔
        ((∃ cb, x.callback = some cb ∧ debounced_condition p x.conditions = true ∧
            c = ⟨i, cb, debounced_event p, x.arg⟩) ∨
         c ∈ handle_input_loop_debounced p (i + 1) rest) := by
      rw [ih]
      constructor
      · rintro ⟨k, d, cb, h1, h2, h3, h4⟩
        cases k with
        | zero =>
          simp at h1; subst h1
          exact Or.inl ⟨cb, h2, h3, by simpa using h4⟩
        | succ k =>
          simp at h1
          exact Or.inr ⟨k, d, cb, h1, h2, h3, by rw [h4]; congr 1; omega⟩
      · rintro (⟨cb, h2, h3, h4⟩ | ⟨k, d, cb, h1, h2, h3, h4⟩)
        · exact ⟨0, x, cb, by simp, h2, h3, by simpa using h4⟩
        · exact ⟨k + 1, d, cb, by simpa using h1, h2, h3, by rw [h4]; congr 1; omega⟩
    rw [key]
    cases hcb : x.callback with
    | none => rw [loop_debounced_cons_none p i x rest hcb]; simp
    | some cb =>
      rw [loop_debounced_cons_some p i x rest cb hcb]
      by_cases hc : debounced_condition p x.conditions = true
      · simp [hc]
      · simp [hc]

theorem debounced_event_ne_duration (p q : Bool) :
    (if q then ZtlDigitalInputEventType.ACTIVE_DURATION
      else ZtlDigitalInputEventType.INACTIVE_DURATION) ≠ debounced_event p := by
  cases p <;> cases q <;> simp [debounced_event]

/-- C2: an evaluation of `handle_input` (also when made by the catch-up
`handle_if_needed`) in which the sample equals the recorded raw state, the
debounced state differs from it and `now - tl_state_change` has reached
`debounce_duration_ms` commits the raw state as debounced state, sets
`is_state_changed_debounced` and `is_state_changed_debounced_button`, and its
debounced calls are exactly the calls of the event of that direction to the
occupied slots whose matching debounced condition is set. In the bounce scenario
(debounce 100 ms, raw high at 0, low at 50, high at 60, one evaluation per
millisecond) the calls up to `t = 160` are the raw events at 0, 50, 60 and the
debounced event at 160; after the evaluation at 159 nothing is debounced yet. -/
theorem debounced_commit_dispatch :
    (∀ (s : ZtlDigitalInput) (v : Bool) (now : Nat),
      v = s.prev_state → s.prev_state_debounced ≠ s.prev_state →
      s.debounce_duration_ms ≤ (now + U64 - s.tl_state_change) % U64 →
        (handle_input s v now).1.prev_state_debounced = s.prev_state ∧
        (handle_input s v now).1.prev_state = s.prev_state ∧
        (handle_input s v now).1.is_state_changed_debounced = true ∧
        (handle_input s v now).1.is_state_changed_debounced_button = true ∧
        (∀ c : SubsCall,
          (c ∈ (handle_input s v now).2 ∧
            (c.event = ZtlDigitalInputEventType.CHANGE_STATE_TO_ACTIVE_DEBOUNCED ∨
             c.event = ZtlDigitalInputEventType.CHANGE_STATE_TO_INACTIVE_DEBOUNCED)) ↔
          ∃ k d cb, s.callback_descriptors[k]? = some d ∧ d.callback = some cb ∧
            debounced_condition s.prev_state d.conditions = true ∧
            c = ⟨k, cb, debounced_event s.prev_state, d.arg⟩) ∧
        (s.tl_handling ≠ now → handle_if_needed s v now = handle_input s v now)) ∧
    ((run_input c2_rec (bounce_evals 161)).2 =
      [(0, ⟨0, 7, ZtlDigitalInputEventType.CHANGE_STATE_TO_ACTIVE, 42⟩),
       (50, ⟨0, 7, ZtlDigitalInputEventType.CHANGE_STATE_TO_INACTIVE, 42⟩),
       (60, ⟨0, 7, ZtlDigitalInputEventType.CHANGE_STATE_TO_ACTIVE, 42⟩),
       (160, ⟨0, 7, ZtlDigitalInputEventType.CHANGE_STATE_TO_ACTIVE_DEBOUNCED, 42⟩)] ∧
     (run_input c2_rec (bounce_evals 160)).1.prev_state_debounced = false ∧
     (run_input c2_rec (bounce_evals 160)).1.is_state_changed_debounced = false ∧
     (run_input c2_rec (bounce_evals 160)).1.is_state_changed_debounced_button = false ∧
     (run_input c2_rec (bounce_evals 161)).1.prev_state_debounced = true ∧
     (run_input c2_rec (bounce_evals 161)).1.is_state_changed_debounced = true ∧
     (run_input c2_rec (bounce_evals 161)).1.is_state_changed_debounced_button = true) := by
  refine ⟨?_, ?_⟩
  · intro s v now hv hne hd
    have hc := handle_input_commit s v now hv hd hne
    refine ⟨by rw [hc], by rw [hc], by rw [hc], by rw [hc], ?_, ?_⟩
    · intro c
      rw [hc]
      simp only
      rw [← (mem_loop_debounced s.prev_state s.callback_descriptors 0 c).trans
        (by simp : (∃ k d cb, s.callback_descriptors[k]? = some d ∧ d.callback = some cb ∧
            debounced_condition s.prev_state d.conditions = true ∧
            c = ⟨0 + k, cb, debounced_event s.prev_state, d.arg⟩) ↔
          (∃ k d cb, s.callback_descriptors[k]? = some d ∧ d.callback = some cb ∧
            debounced_condition s.prev_state d.conditions = true ∧
            c = ⟨k, cb, debounced_event s.prev_state, d.arg⟩))]
      constructor
      · rintro ⟨hc, hev⟩
        rcases List.mem_append.1 hc with hc | hc
        · exact hc
        · exfalso
          have h1 := loop_duration_event _ _ _ _ _ _ hc
          rw [h1] at hev
          rcases hev with hev | hev
          · exact debounced_event_ne_duration true _ hev
          · exact debounced_event_ne_duration false _ hev
      · intro hc
        refine ⟨List.mem_append.2 (Or.inl hc), ?_⟩
        have h1 := loop_debounced_event _ _ _ _ hc
        rw [h1]
        generalize s.prev_state = p
        cases p <;> simp
    · intro ht
      simp [handle_if_needed, ht]
  · set_option maxRecDepth 100000 in decide

theorem debounced_commit_dispatch_witness :
    (true = c2_pending.prev_state ∧ c2_pending.prev_state_debounced ≠ c2_pending.prev_state ∧
      c2_pending.debounce_duration_ms ≤ (160 + U64 - c2_pending.tl_state_change) % U64) ∧
    (handle_input c2_pending true 160).1.prev_state_debounced = c2_pending.prev_state ∧
    (handle_input c2_pending true 160).1.is_state_changed_debounced = true :=
  ⟨by decide,
   (debounced_commit_dispatch.1 c2_pending true 160 (by decide) (by decide) (by decide)).1,
   (debounced_commit_dispatch.1 c2_pending true 160 (by decide) (by decide) (by decide)).2.2.1⟩

/-! ## Lemmas on the output sequencer -/


theorem wrap16_sub (a b : Nat) (h1 : a ≤ b) (h2 : b < U16) : (b + U16 - a) % U16 = b - a := by
  unfold U16 at *
  omega

theorem tick_idle (r : ZtlDigitalOutput) (now : Nat) (h : r.pulse_count = 0) :
    handle_output r now none = ⟨Rc.ok, r, []⟩ := by
  simp [handle_output, h]

theorem tick_wait_high (r : ZtlDigitalOutput) (now : Nat) (hp : r.pulse_state = true)
    (h1 : r.tl_pulse_ms ≤ now) (h2 : now < U64) (h3 : now - r.tl_pulse_ms < r.pulse_on_ms) :
    handle_output r now none = ⟨Rc.ok, r, []⟩ := by
  have hw := wrap_sub _ _ h1 h2
  simp [handle_output, hp, IS_TIME_EXPIRED_EX, hw]
  intro _
  omega

theorem tick_wait_low (r : ZtlDigitalOutput) (now : Nat) (hp : r.pulse_state = false)
    (hP : r.pulse_on_ms ≤ r.pulse_period_ms) (hP16 : r.pulse_period_ms < U16)
    (h1 : r.tl_pulse_ms ≤ now) (h2 : now < U64)
    (h3 : now - r.tl_pulse_ms < r.pulse_period_ms - r.pulse_on_ms) :
    handle_output r now none = ⟨Rc.ok, r, []⟩ := by
  have hw := wrap_sub _ _ h1 h2
  have hw16 := wrap16_sub _ _ hP hP16
  simp [handle_output, hp, IS_TIME_EXPIRED_EX, hw, hw16]
  intro _
  omega

theorem tick_fall (r : ZtlDigitalOutput) (now : Nat) (hc : r.pulse_count ≠ 0)
    (hp : r.pulse_state = true) (hh : r.hw_state = true)
    (h1 : r.tl_pulse_ms ≤ now) (h2 : now < U64) (h3 : r.pulse_on_ms ≤ now - r.tl_pulse_ms) :
    handle_output r now none =
      ⟨Rc.ok, { r with tl_pulse_ms := now, pulse_state := false, hw_state := false }, [false]⟩ := by
  have hw := wrap_sub _ _ h1 h2
  have hc' : ¬ (0 = r.pulse_count) := fun h => hc h.symm
  simp [handle_output, hp, hh, IS_TIME_EXPIRED_EX, hw, h3, hc', set_output]

theorem tick_rise (r : ZtlDigitalOutput) (now : Nat) (hc : 1 < r.pulse_count)
    (hp : r.pulse_state = false) (hh : r.hw_state = false)
    (hP : r.pulse_on_ms ≤ r.pulse_period_ms) (hP16 : r.pulse_period_ms < U16)
    (h1 : r.tl_pulse_ms ≤ now) (h2 : now < U64)
    (h3 : r.pulse_period_ms - r.pulse_on_ms ≤ now - r.tl_pulse_ms) :
    handle_output r now none =
      ⟨Rc.ok, { r with tl_pulse_ms := now, pulse_count := r.pulse_count - 1,
                       pulse_state := true, hw_state := true }, [true]⟩ := by
  have hw := wrap_sub _ _ h1 h2
  have hw16 := wrap16_sub _ _ hP hP16
  have hc0 : ¬ (0 = r.pulse_count) := by omega
  have hc1 : 0 < r.pulse_count := by omega
  have hc2 : ¬ (0 = r.pulse_count - 1) := by omega
  simp [handle_output, hp, hh, IS_TIME_EXPIRED_EX, hw, hw16, h3, hc0, hc1, hc2, set_output]

theorem tick_end (r : ZtlDigitalOutput) (now : Nat) (hc : r.pulse_count = 1)
    (hp : r.pulse_state = false) (hh : r.hw_state = false)
    (hP : r.pulse_on_ms ≤ r.pulse_period_ms) (hP16 : r.pulse_period_ms < U16)
    (h1 : r.tl_pulse_ms ≤ now) (h2 : now < U64)
    (h3 : r.pulse_period_ms - r.pulse_on_ms ≤ now - r.tl_pulse_ms) :
    handle_output r now none =
      ⟨Rc.ok, { r with tl_pulse_ms := now, pulse_count := 0, hw_state := r.state },
        if r.state = true then [true] else []⟩ := by
  have hw := wrap_sub _ _ h1 h2
  have hw16 := wrap16_sub _ _ hP hP16
  cases hs : r.state <;>
    simp [handle_output, hp, hh, hs, IS_TIME_EXPIRED_EX, hw, hw16, h3, hc, set_output]


theorem start_blink_out (r : ZtlDigitalOutput) (n : Int) (t0 : Nat) :
    (ztl_digital_output__start_blink r n t0 none).out =
      { r with pulse_count := n, pulse_state := true, tl_pulse_ms := t0, hw_state := true } := by
  cases h : r.hw_state <;> simp [ztl_digital_output__start_blink, set_output, h]

theorem run_output_succ (r : ZtlDigitalOutput) (t0 m : Nat) (s : ZtlDigitalOutput)
    (w : List (Nat × Bool)) (res : OutputResult)
    (h : run_output r t0 m = (s, w)) (ht : handle_output s (t0 + (m + 1)) none = res) :
    run_output r t0 (m + 1) = (res.out, w ++ res.writes.map (fun v => (t0 + (m + 1), v))) := by
  simp only [run_output, h, ht]

theorem fits_period (t0 n k P : Nat) (hk : k < n) (h : t0 + n * P < U64) :
    t0 + k * P + P < U64 := by
  have h1 : (k + 1) * P ≤ n * P := Nat.mul_le_mul_right P hk
  rw [Nat.succ_mul] at h1
  omega

theorem run_output_train (r : ZtlDigitalOutput) (n t0 : Nat)
    (hon : 0 < r.pulse_on_ms) (hP : r.pulse_on_ms < r.pulse_period_ms)
    (hP16 : r.pulse_period_ms < U16) (hfit : t0 + n * r.pulse_period_ms < U64) :
    ∀ m k j, m = k * r.pulse_period_ms + j → j < r.pulse_period_ms → k < n →
      run_output (ztl_digital_output__start_blink r n t0 none).out t0 m =
        (pulse_train_record r n t0 k j, pulse_train_writes r t0 k j) := by
  intro m
  induction m with
  | zero =>
    intro k j hm hj hk
    have hj0 : j = 0 := by omega
    have hk0 : k = 0 := by
      rcases Nat.eq_zero_or_pos k with h | h
      · exact h
      · exfalso
        have : r.pulse_period_ms ≤ k * r.pulse_period_ms := Nat.le_mul_of_pos_left _ h
        omega
    subst hj0; subst hk0
    simp [run_output, start_blink_out, pulse_train_record, pulse_train_writes,
      pulse_cycle_writes, hon]
    omega
  | succ m ih =>
    intro k j hm hj hk
    have hfitk := fits_period t0 n k r.pulse_period_ms hk hfit
    cases j with
    | zero =>
      -- a period boundary: the low phase of cycle `k - 1` ends
      cases k with
      | zero => simp at hm
      | succ k =>
        rw [Nat.succ_mul] at hm hfitk
        have hprev := ih k (r.pulse_period_ms - 1) (by omega) (by omega) (by omega)
        have hlow : ¬ (r.pulse_period_ms - 1 < r.pulse_on_ms) := by omega
        have htick := tick_rise (pulse_train_record r n t0 k (r.pulse_period_ms - 1))
          (t0 + (m + 1))
          (by simp [pulse_train_record]; omega)
          (by simp [pulse_train_record, hlow])
          (by simp [pulse_train_record, hlow])
          (by simp [pulse_train_record]; omega)
          (by simpa [pulse_train_record] using hP16)
          (by simp [pulse_train_record, hlow]; omega)
          (by omega)
          (by simp [pulse_train_record, hlow]; omega)
        rw [run_output_succ _ _ _ _ _ _ hprev htick]
        have e1 : t0 + (m + 1) = t0 + (k + 1) * r.pulse_period_ms := by
          rw [Nat.succ_mul]; omega
        have h5 : r.pulse_on_ms ≤ r.pulse_period_ms - 1 := by omega
        have h6 : r.pulse_on_ms ≠ 0 := by omega
        simp [pulse_train_record, pulse_train_writes, pulse_cycle_writes, hon, hlow, e1, h5, h6]
        omega
    | succ j =>
      have hprev := ih k j (by omega) (by omega) hk
      by_cases hA : j + 1 < r.pulse_on_ms
      · have hj' : j < r.pulse_on_ms := by omega
        have htick := tick_wait_high (pulse_train_record r n t0 k j) (t0 + (m + 1))
          (by simp [pulse_train_record, hj'])
          (by simp [pulse_train_record, hj']; omega)
          (by omega)
          (by simp [pulse_train_record, hj']; omega)
        rw [run_output_succ _ _ _ _ _ _ hprev htick]
        have hn1 : ¬ (r.pulse_on_ms ≤ j) := by omega
        have hn2 : ¬ (r.pulse_on_ms ≤ j + 1) := by omega
        simp [pulse_train_record, pulse_train_writes, hj', hA, hn1, hn2]
      · by_cases hB : j + 1 = r.pulse_on_ms
        · have hj' : j < r.pulse_on_ms := by omega
          have htick := tick_fall (pulse_train_record r n t0 k j) (t0 + (m + 1))
            (by simp [pulse_train_record]; omega)
            (by simp [pulse_train_record, hj'])
            (by simp [pulse_train_record, hj'])
            (by simp [pulse_train_record, hj']; omega)
            (by omega)
            (by simp [pulse_train_record, hj']; omega)
          rw [run_output_succ _ _ _ _ _ _ hprev htick]
          have hn1 : ¬ (r.pulse_on_ms ≤ j) := by omega
          have hn2 : r.pulse_on_ms ≤ j + 1 := by omega
          simp [pulse_train_record, pulse_train_writes, hj', hA, hn1, hn2]
          omega
        · have hj' : ¬ (j < r.pulse_on_ms) := by omega
          have htick := tick_wait_low (pulse_train_record r n t0 k j) (t0 + (m + 1))
            (by simp [pulse_train_record, hj'])
            (by simp [pulse_train_record]; omega)
            (by simpa [pulse_train_record] using hP16)
            (by simp [pulse_train_record, hj']; omega)
            (by omega)
            (by simp [pulse_train_record, hj']; omega)
          rw [run_output_succ _ _ _ _ _ _ hprev htick]
          have hn1 : r.pulse_on_ms ≤ j := by omega
          have hn2 : r.pulse_on_ms ≤ j + 1 := by omega
          simp [pulse_train_record, pulse_train_writes, hj', hA, hn1, hn2]


theorem run_output_train_end (r : ZtlDigitalOutput) (n t0 : Nat) (hn : 0 < n)
    (hon : 0 < r.pulse_on_ms) (hP : r.pulse_on_ms < r.pulse_period_ms)
    (hP16 : r.pulse_period_ms < U16) (hfit : t0 + n * r.pulse_period_ms < U64) :
    run_output (ztl_digital_output__start_blink r n t0 none).out t0 (n * r.pulse_period_ms) =
      ({ r with pulse_count := 0, pulse_state := false, hw_state := r.state,
                tl_pulse_ms := t0 + n * r.pulse_period_ms },
       pulse_train_writes r t0 (n - 1) (r.pulse_period_ms - 1) ++
         (if r.state = true then [(t0 + n * r.pulse_period_ms, true)] else [])) := by
  obtain ⟨k, rfl⟩ : ∃ k, n = k + 1 := ⟨n - 1, by omega⟩
  have hfitk := fits_period t0 (k + 1) k r.pulse_period_ms (by omega) hfit
  have e0 : (k + 1) * r.pulse_period_ms = (k * r.pulse_period_ms + (r.pulse_period_ms - 1)) + 1 := by
    rw [Nat.succ_mul]; omega
  have hprev := run_output_train r (k + 1) t0 hon hP hP16 hfit
    (k * r.pulse_period_ms + (r.pulse_period_ms - 1)) k (r.pulse_period_ms - 1) rfl
    (by omega) (by omega)
  have hlow : ¬ (r.pulse_period_ms - 1 < r.pulse_on_ms) := by omega
  have htick := tick_end (pulse_train_record r ((k + 1 : Nat) : Int) t0 k (r.pulse_period_ms - 1))
    (t0 + ((k * r.pulse_period_ms + (r.pulse_period_ms - 1)) + 1))
    (by simp [pulse_train_record])
    (by simp [pulse_train_record, hlow])
    (by simp [pulse_train_record, hlow])
    (by simp [pulse_train_record]; omega)
    (by simpa [pulse_train_record] using hP16)
    (by simp [pulse_train_record, hlow]; omega)
    (by omega)
    (by simp [pulse_train_record, hlow]; omega)
  rw [e0, run_output_succ _ _ _ _ _ _ hprev htick]
  cases hs : r.state <;> simp [pulse_train_record, hlow, hs]

theorem run_output_idle (r : ZtlDigitalOutput) (t0 m0 : Nat)
    (h : (run_output r t0 m0).1.pulse_count = 0) :
    ∀ m, m0 ≤ m → run_output r t0 m = run_output r t0 m0 := by
  intro m hm
  induction m, hm using Nat.le_induction with
  | base => rfl
  | succ m _ ih =>
    have ht := tick_idle (run_output r t0 m0).1 (t0 + (m + 1)) h
    rw [run_output_succ r t0 m (run_output r t0 m0).1 (run_output r t0 m0).2 _ (by rw [ih]) ht]
    simp

/-! ## C3: a pulse train of n cycles -/


/-- C3: after `start_blink` with a count `n > 0` at `t0` on a record with
`0 < pulse_on_ms < pulse_period_ms` and one tick per millisecond, the line is
high during the first `pulse_on_ms` milliseconds of each of the `n` periods and
low during the rest of the period, `pulse_count` is `n - k` during period `k`;
the tick at `t0 + n * pulse_period_ms` ends the train with `pulse_count = 0`
and `hw_state` equal to the settled state; later ticks change nothing and
write nothing. The ticks of the train write low once in every period and
high at the start of every further period. -/
theorem pulse_train_cycles (r : ZtlDigitalOutput) (n t0 : Nat) (hn : 0 < n)
    (hon : 0 < r.pulse_on_ms) (hP : r.pulse_on_ms < r.pulse_period_ms)
    (hP16 : r.pulse_period_ms < U16) (hfit : t0 + n * r.pulse_period_ms < U64) :
    (ztl_digital_output__start_blink r n t0 none).out.hw_state = true ∧
    (ztl_digital_output__start_blink r n t0 none).writes =
      (if r.hw_state = true then [] else [true]) ∧
    (∀ k j, k < n → j < r.pulse_period_ms →
      (run_output (ztl_digital_output__start_blink r n t0 none).out t0
          (k * r.pulse_period_ms + j)).1 =
        { r with pulse_count := (n : Int) - k,
                 pulse_state := decide (j < r.pulse_on_ms),
                 hw_state := decide (j < r.pulse_on_ms),
                 tl_pulse_ms := t0 + k * r.pulse_period_ms +
                   (if j < r.pulse_on_ms then 0 else r.pulse_on_ms) }) ∧
    (run_output (ztl_digital_output__start_blink r n t0 none).out t0
        (n * r.pulse_period_ms)).1 =
      { r with pulse_count := 0, pulse_state := false, hw_state := r.state,
               tl_pulse_ms := t0 + n * r.pulse_period_ms } ∧
    (run_output (ztl_digital_output__start_blink r n t0 none).out t0
        (n * r.pulse_period_ms)).2 =
      pulse_cycle_writes t0 r.pulse_period_ms r.pulse_on_ms (n - 1) ++
        [(t0 + (n - 1) * r.pulse_period_ms + r.pulse_on_ms, false)] ++
        (if r.state = true then [(t0 + n * r.pulse_period_ms, true)] else []) ∧
    (∀ m, n * r.pulse_period_ms ≤ m →
      run_output (ztl_digital_output__start_blink r n t0 none).out t0 m =
        run_output (ztl_digital_output__start_blink r n t0 none).out t0
          (n * r.pulse_period_ms)) := by
  have hend := run_output_train_end r n t0 hn hon hP hP16 hfit
  refine ⟨?_, ?_, ?_, ?_, ?_, ?_⟩
  · rw [start_blink_out]
  · cases h : r.hw_state <;> simp [ztl_digital_output__start_blink, set_output, h]
  · intro k j hk hj
    rw [run_output_train r n t0 hon hP hP16 hfit _ k j rfl hj hk]
    rfl
  · rw [hend]
  · rw [hend]
    have h5 : r.pulse_on_ms ≤ r.pulse_period_ms - 1 := by omega
    simp [pulse_train_writes, h5]
  · intro m hm
    exact run_output_idle _ t0 _ (by rw [hend]) m hm

theorem pulse_train_cycles_witness :
    (0 < 3 ∧ 0 < (output_init_record ⟨0, 1⟩).pulse_on_ms ∧
      (output_init_record ⟨0, 1⟩).pulse_on_ms < (output_init_record ⟨0, 1⟩).pulse_period_ms ∧
      (output_init_record ⟨0, 1⟩).pulse_period_ms < U16 ∧
      1000 + 3 * (output_init_record ⟨0, 1⟩).pulse_period_ms < U64) ∧
    (run_output (ztl_digital_output__start_blink (output_init_record ⟨0, 1⟩)
        ((3 : Nat) : Int) 1000 none).out 1000
        (3 * (output_init_record ⟨0, 1⟩).pulse_period_ms)).1 =
      { output_init_record ⟨0, 1⟩ with
        pulse_count := 0, pulse_state := false,
        hw_state := (output_init_record ⟨0, 1⟩).state,
        tl_pulse_ms := 1000 + 3 * (output_init_record ⟨0, 1⟩).pulse_period_ms } :=
  ⟨by decide,
   (pulse_train_cycles (output_init_record ⟨0, 1⟩) 3 1000 (by decide) (by decide) (by decide)
    (by decide) (by decide)).2.2.2.1⟩

/-! ## C4: the two-cycle scenario -/


/-- C4 as stated fails: with period 500 and on-time 250, `start_blink(2)` at
`t0 = 1000` on a freshly initialised output and one tick per millisecond, the
train is not over at `t0 + 750`: `pulse_count` is still 1 there. And on an
output whose line is already high (after `set(true)`) the start issues no
write at `t0`. -/
theorem pulse_two_not_settled_at_750 :
    ¬ ((run_output (ztl_digital_output__start_blink (output_init_record ⟨0, 1⟩) 2 1000 none).out
          1000 750).1.pulse_count = 0) ∧
    (ztl_digital_output__start_blink
      (ztl_digital_output__set (output_init_record ⟨0, 1⟩) true none).out 2 1000 none).writes =
        [] := by
  refine ⟨?_, by decide⟩
  have h := run_output_train (output_init_record ⟨0, 1⟩) 2 1000 (by decide) (by decide)
    (by decide) (by decide) 750 1 250 (by decide) (by decide) (by decide)
  simp only [Nat.cast_ofNat] at h
  rw [h]
  decide

/-- C4 amended: with period 500 and on-time 250, `start_blink(2)` at `t0` and one
tick per millisecond: the start writes high (unless the line is already
high), the ticks write low at `t0 + 250`, high at `t0 + 500`, low at
`t0 + 750`, and the train ends at `t0 + 1000`: `pulse_count` is 2 before
`t0 + 500`, 1 from `t0 + 500` up to `t0 + 999` and 0 at `t0 + 1000`, where the
settled level is restored (a high write only if the settled state is high). -/
theorem pulse_two_periods (r : ZtlDigitalOutput) (t0 : Nat)
    (hperiod : r.pulse_period_ms = 500) (hon : r.pulse_on_ms = 250) (hfit : t0 + 1000 < U64) :
    (ztl_digital_output__start_blink r 2 t0 none).writes =
      (if r.hw_state = true then [] else [true]) ∧
    (run_output (ztl_digital_output__start_blink r 2 t0 none).out t0 1000).2 =
      [(t0 + 250, false), (t0 + 500, true), (t0 + 750, false)] ++
        (if r.state = true then [(t0 + 1000, true)] else []) ∧
    (∀ m, m < 1000 →
      (run_output (ztl_digital_output__start_blink r 2 t0 none).out t0 m).1.pulse_count =
        (if m < 500 then 2 else 1) ∧
      (run_output (ztl_digital_output__start_blink r 2 t0 none).out t0 m).1.hw_state =
        decide (m % 500 < 250)) ∧
    (run_output (ztl_digital_output__start_blink r 2 t0 none).out t0 1000).1.pulse_count = 0 ∧
    (run_output (ztl_digital_output__start_blink r 2 t0 none).out t0 1000).1.hw_state = r.state := by
  have h16 : r.pulse_period_ms < U16 := by rw [hperiod]; decide
  have hfit2 : t0 + 2 * r.pulse_period_ms < U64 := by rw [hperiod]; omega
  have hend := run_output_train_end r 2 t0 (by decide) (by omega) (by omega) h16 hfit2
  rw [hperiod] at hend
  refine ⟨?_, ?_, ?_, ?_, ?_⟩
  · cases h : r.hw_state <;> simp [ztl_digital_output__start_blink, set_output, h]
  · have := congrArg Prod.snd hend
    simp only [Nat.cast_ofNat] at this
    rw [show (2 * 500 : Nat) = 1000 from rfl] at this
    rw [this]
    simp [pulse_train_writes, pulse_cycle_writes, hperiod, hon]
  · intro m hm
    have hrun := run_output_train r 2 t0 (by omega) (by omega) h16 hfit2 m (m / 500) (m % 500)
      (by rw [hperiod]; omega) (by rw [hperiod]; omega) (by omega)
    simp only [Nat.cast_ofNat] at hrun
    rw [hrun]
    simp only [pulse_train_record, hon]
    refine ⟨?_, trivial⟩
    split <;> omega
  · have := congrArg Prod.fst hend
    simp only [Nat.cast_ofNat] at this
    rw [show (2 * 500 : Nat) = 1000 from rfl] at this
    rw [this]
  · have := congrArg Prod.fst hend
    simp only [Nat.cast_ofNat] at this
    rw [show (2 * 500 : Nat) = 1000 from rfl] at this
    rw [this]

theorem pulse_two_periods_witness :
    ((output_init_record ⟨0, 1⟩).pulse_period_ms = 500 ∧
      (output_init_record ⟨0, 1⟩).pulse_on_ms = 250 ∧ 1000 + 1000 < U64) ∧
    (run_output (ztl_digital_output__start_blink (output_init_record ⟨0, 1⟩) 2 1000 none).out
        1000 1000).1.pulse_count = 0 :=
  ⟨by decide,
   (pulse_two_periods (output_init_record ⟨0, 1⟩) 1000 (by decide) (by decide)
     (by decide)).2.2.2.1⟩

/-! ## C5: start with count zero -/


/-- C5 (code defect): `start_blink` with count 0 is not the transition of
`stop_blink`. For every record it leaves `pulse_count = 0` with the line
driven high (a high write whenever the line was low) and no later tick
restores the settled level, whereas `stop_blink` leaves `hw_state` equal to the
settled state. On a freshly initialised output (settled low, line low)
`start_blink(0)` writes high and `stop_blink` writes nothing. -/
theorem start_blink_zero_drives_high :
    (∀ (r : ZtlDigitalOutput) (t : Nat),
      (ztl_digital_output__start_blink r 0 t none).out.pulse_count = 0 ∧
      (ztl_digital_output__start_blink r 0 t none).out.state = r.state ∧
      (ztl_digital_output__start_blink r 0 t none).out.hw_state = true ∧
      (ztl_digital_output__start_blink r 0 t none).writes =
        (if r.hw_state = true then [] else [true]) ∧
      (∀ m, run_output (ztl_digital_output__start_blink r 0 t none).out t m =
        ((ztl_digital_output__start_blink r 0 t none).out, []))) ∧
    (∀ (r : ZtlDigitalOutput),
      (ztl_digital_output__stop_blink r none).out.pulse_count = 0 ∧
      (ztl_digital_output__stop_blink r none).out.hw_state = r.state ∧
      (ztl_digital_output__stop_blink r none).writes =
        (if r.state = r.hw_state then [] else [r.state])) ∧
    ((ztl_digital_output__start_blink (output_init_record ⟨0, 1⟩) 0 5 none).writes = [true] ∧
     (ztl_digital_output__start_blink (output_init_record ⟨0, 1⟩) 0 5 none).out.hw_state = true ∧
     (ztl_digital_output__start_blink (output_init_record ⟨0, 1⟩) 0 5 none).out.state = false ∧
     (ztl_digital_output__stop_blink (output_init_record ⟨0, 1⟩) none).writes = [] ∧
     (ztl_digital_output__stop_blink (output_init_record ⟨0, 1⟩) none).out.hw_state = false) := by
  refine ⟨?_, ?_, by decide⟩
  · intro r t
    have hout := start_blink_out r 0 t
    refine ⟨by rw [hout], by rw [hout], by rw [hout], ?_, ?_⟩
    · cases h : r.hw_state <;> simp [ztl_digital_output__start_blink, set_output, h]
    · intro m
      exact run_output_idle _ t 0 (by simp [run_output, hout]) m (Nat.zero_le m)
  · intro r
    cases hs : r.state <;> cases hh : r.hw_state <;>
      simp [ztl_digital_output__stop_blink, set_output, hs, hh]

/-! ## C6: duration events -/


theorem handle_input_not_fired (s : ZtlDigitalInput) (v : Bool) (now : Nat)
    (hf : s.is_subs_called_for_duration = false) :
    (handle_input s v now).1.is_subs_called_for_duration = false ∧
    ∀ c ∈ (handle_input s v now).2,
      c.event ≠ ZtlDigitalInputEventType.ACTIVE_DURATION ∧
      c.event ≠ ZtlDigitalInputEventType.INACTIVE_DURATION := by
  by_cases hv : v = s.prev_state
  · by_cases hq : (now + U64 - s.tl_state_change) % U64 < s.debounce_duration_ms ∨
        s.prev_state_debounced = s.prev_state
    · rw [handle_input_quiet s v now hv hq, hf, loop_duration_not_fired]
      simp
    · have hd : s.debounce_duration_ms ≤ (now + U64 - s.tl_state_change) % U64 := by
        by_contra hc
        exact hq (Or.inl (Nat.not_le.1 hc))
      have hne : s.prev_state_debounced ≠ s.prev_state := fun h => hq (Or.inr h)
      rw [handle_input_commit s v now hv hd hne, hf, loop_duration_not_fired]
      refine ⟨rfl, ?_⟩
      intro c hc
      simp only [List.append_nil] at hc
      have := loop_debounced_event _ _ _ _ hc
      rw [this]
      generalize s.prev_state = p
      cases p <;> simp
  · rw [handle_input_change s v now hv]
    refine ⟨rfl, ?_⟩
    intro c hc
    have := loop_raw_event _ _ _ _ hc
    rw [this]
    cases v <;> simp

theorem run_input_not_fired (evals : List (Bool × Nat)) :
    ∀ (s : ZtlDigitalInput), s.is_subs_called_for_duration = false →
      (run_input s evals).1.is_subs_called_for_duration = false ∧
      ∀ c ∈ (run_input s evals).2,
        c.2.event ≠ ZtlDigitalInputEventType.ACTIVE_DURATION ∧
        c.2.event ≠ ZtlDigitalInputEventType.INACTIVE_DURATION := by
  induction evals with
  | nil => intro s hf; simpa [run_input] using hf
  | cons e rest ih =>
    intro s hf
    obtain ⟨v, now⟩ := e
    have h1 := handle_input_not_fired s v now hf
    have h2 := ih (handle_input s v now).1 h1.1
    simp only [run_input]
    refine ⟨h2.1, ?_⟩
    intro c hc
    rcases List.mem_append.1 hc with hc | hc
    · obtain ⟨c', hc', rfl⟩ := List.mem_map.1 hc
      exact h1.2 c' hc'
    · exact h2.2 c hc

theorem duration_calls_to_zero (i : Nat) (trace : List (Nat × SubsCall))
    (h : ∀ c ∈ trace, c.2.event ≠ ZtlDigitalInputEventType.ACTIVE_DURATION ∧
      c.2.event ≠ ZtlDigitalInputEventType.INACTIVE_DURATION) :
    duration_calls_to i trace = 0 := by
  unfold duration_calls_to
  rw [List.length_eq_zero, List.filter_eq_nil_iff]
  intro c hc
  have := h c hc
  simp [this.1, this.2]

/-- C6 (code defect): the duration loop of `handle_input` asks for
`is_subs_called_for_duration` to be SET before it dispatches, so with the flag
clear nothing is dispatched: whenever the flag is clear an evaluation leaves it
clear and makes no duration call; from a freshly initialised record, whatever
the subscribers and the samples, no duration event is ever dispatched. On the
record `c6_active` (active since `t = 1`, subscriber threshold 10 ms, flag
clear) the evaluation at `t = 11` makes no call and leaves the flag clear. -/
theorem duration_event_never_dispatched :
    (∀ (s : ZtlDigitalInput) (v : Bool) (now : Nat),
      s.is_subs_called_for_duration = false →
        (handle_input s v now).1.is_subs_called_for_duration = false ∧
        ∀ c ∈ (handle_input s v now).2,
          c.event ≠ ZtlDigitalInputEventType.ACTIVE_DURATION ∧
          c.event ≠ ZtlDigitalInputEventType.INACTIVE_DURATION) ∧
    (∀ (gpio : GpioDtSpec) (lvl : ZtlLevel) (slots : Nat)
       (descrs : List ZtlDigitalInputCallbackDescriptor) (evals : List (Bool × Nat)),
      ∀ c ∈ (run_input { input_init_record gpio lvl slots with
                callback_descriptors := descrs } evals).2,
        c.2.event ≠ ZtlDigitalInputEventType.ACTIVE_DURATION ∧
        c.2.event ≠ ZtlDigitalInputEventType.INACTIVE_DURATION) ∧
    (c6_active.prev_state = true ∧ c6_active.is_subs_called_for_duration = false ∧
     c6_active.tl_state_change = 1 ∧
     (c6_active.callback_descriptors.map (fun d => d.conditions.active_state_duration)) = [10, 0] ∧
     (handle_input c6_active true 11).2 = [] ∧
     (handle_input c6_active true 11).1.is_subs_called_for_duration = false) := by
  refine ⟨handle_input_not_fired, ?_, by decide⟩
  intro gpio lvl slots descrs evals
  exact (run_input_not_fired evals _ rfl).2

/-! ## C7: duration events per level-hold -/

/-- C7: in one continuous level-hold (an evaluation that observes a raw change,
followed by any number of evaluations of the same level; or evaluations of the
inactive level right after init) every subscriber slot receives at most one
duration event. -/
theorem duration_at_most_once_per_hold :
    (∀ (s : ZtlDigitalInput) (v0 : Bool) (t0 : Nat) (rest : List (Bool × Nat)) (i : Nat),
      v0 ≠ s.prev_state → (∀ e ∈ rest, e.1 = v0) →
        duration_calls_to i (run_input s ((v0, t0) :: rest)).2 ≤ 1) ∧
    (∀ (gpio : GpioDtSpec) (lvl : ZtlLevel) (slots : Nat)
       (descrs : List ZtlDigitalInputCallbackDescriptor) (rest : List (Bool × Nat)) (i : Nat),
      (∀ e ∈ rest, e.1 = false) →
        duration_calls_to i (run_input { input_init_record gpio lvl slots with
          callback_descriptors := descrs } rest).2 ≤ 1) := by
  refine ⟨?_, ?_⟩
  · intro s v0 t0 rest i hv _
    have hc := handle_input_change s v0 t0 hv
    have hrest := run_input_not_fired rest (handle_input s v0 t0).1 (by rw [hc])
    have hz : duration_calls_to i (run_input s ((v0, t0) :: rest)).2 = 0 := by
      apply duration_calls_to_zero
      intro c hcm
      simp only [run_input] at hcm
      rcases List.mem_append.1 hcm with hcm | hcm
      · obtain ⟨c', hc', rfl⟩ := List.mem_map.1 hcm
        rw [hc] at hc'
        have := loop_raw_event _ _ _ _ hc'
        simp only
        rw [this]
        cases v0 <;> simp
      · exact hrest.2 c hcm
    omega
  · intro gpio lvl slots descrs rest i _
    have hz := duration_calls_to_zero i _ (run_input_not_fired rest
      { input_init_record gpio lvl slots with callback_descriptors := descrs } rfl).2
    omega

theorem duration_at_most_once_per_hold_witness :
    (true ≠ c6_rec.prev_state ∧
      ∀ e ∈ [(true, 5), (true, 11), (true, 12), (true, 30)], e.1 = true) ∧
    duration_calls_to 0
      (run_input c6_rec ((true, 1) :: [(true, 5), (true, 11), (true, 12), (true, 30)])).2 ≤ 1 :=
  ⟨by decide,
   duration_at_most_once_per_hold.1 c6_rec true 1 [(true, 5), (true, 11), (true, 12), (true, 30)] 0
     (by decide) (by decide)⟩

/-! ## C8: consuming reads -/


theorem handle_if_needed_keeps_flags (s : ZtlDigitalInput) (v : Bool) (now : Nat) :
    (s.is_state_changed = true → (handle_if_needed s v now).1.is_state_changed = true) ∧
    (s.is_state_changed_debounced = true →
      (handle_if_needed s v now).1.is_state_changed_debounced = true) ∧
    (s.is_state_changed_debounced_button = true →
      (handle_if_needed s v now).1.is_state_changed_debounced_button = true) := by
  unfold handle_if_needed
  by_cases ht : s.tl_handling = now
  · simp [ht]
  · simp only [ne_eq, ht, not_false_eq_true, if_true]
    by_cases hv : v = s.prev_state
    · by_cases hq : (now + U64 - s.tl_state_change) % U64 < s.debounce_duration_ms ∨
          s.prev_state_debounced = s.prev_state
      · rw [handle_input_quiet s v now hv hq]
        exact ⟨id, id, id⟩
      · have hd : s.debounce_duration_ms ≤ (now + U64 - s.tl_state_change) % U64 := by
          by_contra hc
          exact hq (Or.inl (Nat.not_le.1 hc))
        have hne : s.prev_state_debounced ≠ s.prev_state := fun h => hq (Or.inr h)
        rw [handle_input_commit s v now hv hd hne]
        exact ⟨id, fun _ => rfl, fun _ => rfl⟩
    · rw [handle_input_change s v now hv]
      exact ⟨fun _ => rfl, id, id⟩

/-- C8 as stated fails: a consuming read does touch the flags that are not
its own, through its catch-up evaluation. `is_state_changed` on `c2_pending`
(raw active since 60, nothing debounced) at `t = 160` commits the debounced
state and leaves `is_state_changed_debounced` and
`is_state_changed_debounced_button` set, both clear before the call;
`is_state_changed_debounced` on the fresh record `c2_rec`, sampling a raw change
at `t = 7`, leaves `is_state_changed` set, clear before the call. -/
theorem changed_read_sets_other_flags :
    (c2_pending.is_state_changed_debounced = false ∧
     c2_pending.is_state_changed_debounced_button = false ∧
     (ztl_digital_input__is_state_changed c2_pending true 160).self.is_state_changed_debounced =
       true ∧
     (ztl_digital_input__is_state_changed c2_pending true
       160).self.is_state_changed_debounced_button = true) ∧
    (c2_rec.is_state_changed = false ∧
     (ztl_digital_input__is_state_changed_debounced c2_rec true 7).self.is_state_changed =
       true) := by
  decide

/-- C8 amended: `is_state_changed` and `is_state_changed_debounced` return the
value that their changed flag and their state have after the catch-up, clear
that flag and leave every other field of the caught-up record as it is; a
second call returns `changed = false` whenever its catch-up is skipped or
observes no raw change (resp. does not change the debounced state). The two
flags that are not the call's own have afterwards the values the catch-up
evaluation left: the call never clears one of them, and a call whose catch-up
is skipped leaves them exactly as they were. -/
theorem changed_reads_consume :
    (∀ (s : ZtlDigitalInput) (v : Bool) (now : Nat),
      (ztl_digital_input__is_state_changed s v now).is_changed =
        (handle_if_needed s v now).1.is_state_changed ∧
      (ztl_digital_input__is_state_changed s v now).state =
        (handle_if_needed s v now).1.prev_state ∧
      (ztl_digital_input__is_state_changed s v now).self =
        { (handle_if_needed s v now).1 with is_state_changed := false } ∧
      (ztl_digital_input__is_state_changed s v now).calls = (handle_if_needed s v now).2) ∧
    (∀ (s : ZtlDigitalInput) (v : Bool) (now : Nat),
      (ztl_digital_input__is_state_changed_debounced s v now).is_changed =
        (handle_if_needed s v now).1.is_state_changed_debounced ∧
      (ztl_digital_input__is_state_changed_debounced s v now).state =
        (handle_if_needed s v now).1.prev_state_debounced ∧
      (ztl_digital_input__is_state_changed_debounced s v now).self =
        { (handle_if_needed s v now).1 with is_state_changed_debounced := false } ∧
      (ztl_digital_input__is_state_changed_debounced s v now).calls =
        (handle_if_needed s v now).2) ∧
    (∀ (s : ZtlDigitalInput) (v1 v2 : Bool) (t1 t2 : Nat),
      (t2 = (ztl_digital_input__is_state_changed s v1 t1).self.tl_handling ∨
       v2 = (ztl_digital_input__is_state_changed s v1 t1).self.prev_state) →
        (ztl_digital_input__is_state_changed
          (ztl_digital_input__is_state_changed s v1 t1).self v2 t2).is_changed = false) ∧
    (∀ (s : ZtlDigitalInput) (v1 v2 : Bool) (t1 t2 : Nat),
      (t2 = (ztl_digital_input__is_state_changed_debounced s v1 t1).self.tl_handling ∨
       (handle_if_needed (ztl_digital_input__is_state_changed_debounced s v1 t1).self
           v2 t2).1.prev_state_debounced =
         (ztl_digital_input__is_state_changed_debounced s v1 t1).self.prev_state_debounced) →
        (ztl_digital_input__is_state_changed_debounced
          (ztl_digital_input__is_state_changed_debounced s v1 t1).self v2 t2).is_changed =
            false) ∧
    (∀ (s : ZtlDigitalInput) (v : Bool) (now : Nat),
      (s.is_state_changed_debounced = true →
        (ztl_digital_input__is_state_changed s v now).self.is_state_changed_debounced = true) ∧
      (s.is_state_changed_debounced_button = true →
        (ztl_digital_input__is_state_changed s v now).self.is_state_changed_debounced_button =
          true) ∧
      (s.is_state_changed = true →
        (ztl_digital_input__is_state_changed_debounced s v now).self.is_state_changed = true) ∧
      (s.is_state_changed_debounced_button = true →
        (ztl_digital_input__is_state_changed_debounced s v
          now).self.is_state_changed_debounced_button = true)) ∧
    (∀ (s : ZtlDigitalInput) (v : Bool),
      (ztl_digital_input__is_state_changed s v s.tl_handling).self =
        { s with is_state_changed := false } ∧
      (ztl_digital_input__is_state_changed_debounced s v s.tl_handling).self =
        { s with is_state_changed_debounced := false }) := by
  refine ⟨fun s v now => ⟨rfl, rfl, rfl, rfl⟩, fun s v now => ⟨rfl, rfl, rfl, rfl⟩, ?_, ?_,
    ?_, ?_⟩
  · intro s v1 v2 t1 t2 h
    generalize hs1 : (ztl_digital_input__is_state_changed s v1 t1).self = s1 at h
    have hflag : s1.is_state_changed = false := by
      rw [← hs1]; rfl
    show (handle_if_needed s1 v2 t2).1.is_state_changed = false
    unfold handle_if_needed
    by_cases ht : s1.tl_handling = t2
    · simp [ht, hflag]
    · have hv : v2 = s1.prev_state := by
        rcases h with h | h
        · exact absurd h.symm ht
        · exact h
      simp only [ne_eq, ht, not_false_eq_true, if_true]
      simp [handle_input, hv]
      split <;> [split; skip] <;> exact hflag
  · intro s v1 v2 t1 t2 h
    generalize hs1 : (ztl_digital_input__is_state_changed_debounced s v1 t1).self = s1 at h
    have hflag : s1.is_state_changed_debounced = false := by
      rw [← hs1]; rfl
    show (handle_if_needed s1 v2 t2).1.is_state_changed_debounced = false
    by_cases ht : s1.tl_handling = t2
    · simp [handle_if_needed, ht, hflag]
    · have hne : t2 ≠ s1.tl_handling := fun e => ht e.symm
      have hdeb : (handle_if_needed s1 v2 t2).1.prev_state_debounced = s1.prev_state_debounced := by
        rcases h with h | h
        · exact absurd h hne
        · exact h
      have hi : handle_if_needed s1 v2 t2 = handle_input s1 v2 t2 := by
        simp [handle_if_needed, ht]
      rw [hi] at hdeb ⊢
      by_cases hv : v2 = s1.prev_state
      · by_cases hq : (t2 + U64 - s1.tl_state_change) % U64 < s1.debounce_duration_ms ∨
            s1.prev_state_debounced = s1.prev_state
        · rw [handle_input_quiet s1 v2 t2 hv hq]; exact hflag
        · exfalso
          have hd : s1.debounce_duration_ms ≤ (t2 + U64 - s1.tl_state_change) % U64 := by
            by_contra hc
            exact hq (Or.inl (Nat.not_le.1 hc))
          have hne2 : s1.prev_state_debounced ≠ s1.prev_state := fun h => hq (Or.inr h)
          rw [handle_input_commit s1 v2 t2 hv hd hne2] at hdeb
          exact hne2 hdeb.symm
      · rw [handle_input_change s1 v2 t2 hv]; exact hflag
  · intro s v now
    have hk := handle_if_needed_keeps_flags s v now
    exact ⟨hk.2.1, hk.2.2, hk.1, hk.2.2⟩
  · intro s v
    simp [ztl_digital_input__is_state_changed, ztl_digital_input__is_state_changed_debounced,
      handle_if_needed]

theorem changed_reads_consume_witness :
    (true = (ztl_digital_input__is_state_changed c2_rec true 7).self.prev_state) ∧
    (ztl_digital_input__is_state_changed c2_rec true 7).is_changed = true ∧
    (ztl_digital_input__is_state_changed
      (ztl_digital_input__is_state_changed c2_rec true 7).self true 8).is_changed = false :=
  ⟨by decide, by decide,
   changed_reads_consume.2.2.1 c2_rec true true 7 8 (Or.inr (by decide))⟩

/-! ## C9: the button signal -/


theorem handle_input_push_origin (s : ZtlDigitalInput) (v : Bool) (now : Nat)
    (hf : (handle_input s v now).1.is_state_changed_debounced_button = true)
    (hd : (handle_input s v now).1.prev_state_debounced = true) :
    (s.is_state_changed_debounced_button = true ∧ s.prev_state_debounced = true) ∨
    s.prev_state_debounced = false := by
  by_cases hv : v = s.prev_state
  · by_cases hq : (now + U64 - s.tl_state_change) % U64 < s.debounce_duration_ms ∨
        s.prev_state_debounced = s.prev_state
    · rw [handle_input_quiet s v now hv hq] at hf hd
      exact Or.inl ⟨hf, hd⟩
    · have hdd : s.debounce_duration_ms ≤ (now + U64 - s.tl_state_change) % U64 := by
        by_contra hc
        exact hq (Or.inl (Nat.not_le.1 hc))
      have hne : s.prev_state_debounced ≠ s.prev_state := fun h => hq (Or.inr h)
      rw [handle_input_commit s v now hv hdd hne] at hd
      simp only at hd
      right
      rw [hd] at hne
      simpa using hne
  · rw [handle_input_change s v now hv] at hf hd
    exact Or.inl ⟨hf, hd⟩

theorem handle_if_needed_push_origin (s : ZtlDigitalInput) (v : Bool) (now : Nat)
    (hf : (handle_if_needed s v now).1.is_state_changed_debounced_button = true)
    (hd : (handle_if_needed s v now).1.prev_state_debounced = true) :
    (s.is_state_changed_debounced_button = true ∧ s.prev_state_debounced = true) ∨
    s.prev_state_debounced = false := by
  unfold handle_if_needed at hf hd
  by_cases ht : s.tl_handling = now
  · simp [ht] at hf hd
    exact Or.inl ⟨hf, hd⟩
  · simp only [ne_eq, ht, not_false_eq_true, if_true] at hf hd
    exact handle_input_push_origin s v now hf hd

theorem state_button_pushed (s : ZtlDigitalInput) (v : Bool) (now now2 : Nat)
    (hf : (handle_if_needed s v now).1.is_state_changed_debounced_button = true)
    (hd : (handle_if_needed s v now).1.prev_state_debounced = true) :
    ztl_digital_input__state_button s v now now2 =
      ⟨{ (handle_if_needed s v now).1 with is_state_changed_debounced_button := false },
        ZtlButtonState.PUSHED, (handle_if_needed s v now).2⟩ := by
  simp [ztl_digital_input__state_button, hf, hd]

theorem state_button_not_pushed (s : ZtlDigitalInput) (v : Bool) (now now2 : Nat)
    (h : ¬ ((handle_if_needed s v now).1.is_state_changed_debounced_button = true ∧
      (handle_if_needed s v now).1.prev_state_debounced = true)) :
    (ztl_digital_input__state_button s v now now2).self = (handle_if_needed s v now).1 ∧
    (ztl_digital_input__state_button s v now now2).state ≠ ZtlButtonState.PUSHED := by
  have hb : ((handle_if_needed s v now).1.is_state_changed_debounced_button &&
      (handle_if_needed s v now).1.prev_state_debounced) = false := by
    rw [Bool.and_eq_false_iff]
    by_cases h1 : (handle_if_needed s v now).1.is_state_changed_debounced_button = true
    · right
      cases h2 : (handle_if_needed s v now).1.prev_state_debounced
      · rfl
      · exact absurd ⟨h1, h2⟩ h
    · left
      simpa using h1
  unfold ztl_digital_input__state_button
  simp only [hb, Bool.false_eq_true, if_false]
  split
  · split <;> exact ⟨rfl, by simp⟩
  · exact ⟨rfl, by simp⟩

theorem run_button_armed (actions : List ButtonAction) :
    ∀ (s : ZtlDigitalInput) (armed : Bool),
      (s.is_state_changed_debounced_button = true → s.prev_state_debounced = true →
        armed = true) →
      pushes_follow_rising armed (run_button s actions) = true := by
  induction actions with
  | nil => intro s armed _; rfl
  | cons a rest ih =>
    intro s armed hinv
    cases a with
    | eval v now =>
      simp only [run_button]
      by_cases hr : s.prev_state_debounced = false ∧
          (handle_input s v now).1.prev_state_debounced = true
      · rw [if_pos hr]
        exact ih _ true (fun _ _ => rfl)
      · rw [if_neg hr]
        refine ih _ armed ?_
        intro hf hd
        rcases handle_input_push_origin s v now hf hd with ⟨h1, h2⟩ | h
        · exact hinv h1 h2
        · exact absurd ⟨h, hd⟩ hr
    | read v now now2 =>
      simp only [run_button]
      -- the flag available after the catch-up
      have hinv1 : ∀ armed1 : Bool,
          (armed1 = true ∨ (armed1 = armed ∧ ¬ (s.prev_state_debounced = false ∧
            (handle_if_needed s v now).1.prev_state_debounced = true))) →
          ((handle_if_needed s v now).1.is_state_changed_debounced_button = true →
            (handle_if_needed s v now).1.prev_state_debounced = true → armed1 = true) := by
        intro armed1 h1 hf hd
        rcases h1 with h1 | ⟨h1, hr⟩
        · exact h1
        · rw [h1]
          rcases handle_if_needed_push_origin s v now hf hd with ⟨h2, h3⟩ | h
          · exact hinv h2 h3
          · exact absurd ⟨h, hd⟩ hr
      have hread : ∀ armed1 : Bool,
          ((handle_if_needed s v now).1.is_state_changed_debounced_button = true →
            (handle_if_needed s v now).1.prev_state_debounced = true → armed1 = true) →
          pushes_follow_rising armed1
            ((if (ztl_digital_input__state_button s v now now2).state = ZtlButtonState.PUSHED
                then [ButtonObs.pushed] else []) ++
              run_button (ztl_digital_input__state_button s v now now2).self rest) = true := by
        intro armed1 h1
        by_cases hp : (handle_if_needed s v now).1.is_state_changed_debounced_button = true ∧
            (handle_if_needed s v now).1.prev_state_debounced = true
        · rw [state_button_pushed s v now now2 hp.1 hp.2]
          have ha := h1 hp.1 hp.2
          simp only [if_true, List.singleton_append, pushes_follow_rising, ha, Bool.true_and]
          exact ih _ false (fun hf _ => by simp at hf)
        · have hn := state_button_not_pushed s v now now2 hp
          rw [if_neg hn.2, hn.1, List.nil_append]
          exact ih _ armed1 h1
      by_cases hr : s.prev_state_debounced = false ∧
          (handle_if_needed s v now).1.prev_state_debounced = true
      · rw [if_pos hr]
        simp only [List.append_assoc, List.singleton_append, pushes_follow_rising]
        exact hread true (hinv1 true (Or.inl rfl))
      · rw [if_neg hr]
        simp only [List.nil_append]
        exact hread armed (hinv1 armed (Or.inr ⟨rfl, hr⟩))


/-- C9: in every interleaving of `handle_input` evaluations and `state_button`
reads that starts from a freshly initialised record (whatever its subscribers
and durations), or from any record whose button flag is clear, every read that
returns `PUSHED` is preceded by a rising debounced edge that no earlier
`PUSHED` has used. A read returns `PUSHED` exactly when, after its catch-up,
the button flag is set and the debounced state is active, whatever the clump
condition, and it then clears the flag; with the debounced state inactive a
set flag never yields `PUSHED`. On `c9_rec` (push pending, raw active for
500 ms, clump threshold 200 ms) the read returns `PUSHED` and the next read
`CLUMPED`. -/
theorem pushed_once_per_rising_edge :
    (∀ (gpio : GpioDtSpec) (lvl : ZtlLevel) (slots debounce clump : Nat)
       (descrs : List ZtlDigitalInputCallbackDescriptor) (actions : List ButtonAction),
      pushes_follow_rising false
        (run_button { input_init_record gpio lvl slots with
          callback_descriptors := descrs, debounce_duration_ms := debounce,
          clump_duration_ms := clump } actions) = true) ∧
    (∀ (s : ZtlDigitalInput) (actions : List ButtonAction),
      s.is_state_changed_debounced_button = false →
        pushes_follow_rising false (run_button s actions) = true) ∧
    (∀ (s : ZtlDigitalInput) (v : Bool) (now now2 : Nat),
      ((ztl_digital_input__state_button s v now now2).state = ZtlButtonState.PUSHED ↔
        ((handle_if_needed s v now).1.is_state_changed_debounced_button = true ∧
         (handle_if_needed s v now).1.prev_state_debounced = true)) ∧
      ((ztl_digital_input__state_button s v now now2).state = ZtlButtonState.PUSHED →
        (ztl_digital_input__state_button s v now now2).self.is_state_changed_debounced_button =
          false)) ∧
    ((ztl_digital_input__state_button c9_rec true 1500 1500).state = ZtlButtonState.PUSHED ∧
     (ztl_digital_input__state_button
       (ztl_digital_input__state_button c9_rec true 1500 1500).self true 1500 1500).state =
         ZtlButtonState.CLUMPED) := by
  refine ⟨?_, ?_, ?_, by decide⟩
  · intro gpio lvl slots debounce clump descrs actions
    exact run_button_armed actions _ false (fun hf _ => by simp [input_init_record] at hf)
  · intro s actions hf
    exact run_button_armed actions s false (fun h _ => by rw [hf] at h; simp at h)
  · intro s v now now2
    by_cases hp : (handle_if_needed s v now).1.is_state_changed_debounced_button = true ∧
        (handle_if_needed s v now).1.prev_state_debounced = true
    · rw [state_button_pushed s v now now2 hp.1 hp.2]
      exact ⟨⟨fun _ => hp, fun _ => rfl⟩, fun _ => rfl⟩
    · have hn := state_button_not_pushed s v now now2 hp
      exact ⟨⟨fun h => absurd h hn.2, fun h => absurd h hp⟩, fun h => absurd h hn.2⟩

theorem pushed_once_per_rising_edge_witness :
    c2_rec.is_state_changed_debounced_button = false ∧
    pushes_follow_rising false
      (run_button c2_rec
        [ButtonAction.eval true 1, ButtonAction.eval true 101, ButtonAction.read true 102 102,
         ButtonAction.read true 103 103, ButtonAction.eval false 110,
         ButtonAction.read false 300 300, ButtonAction.read false 301 301]) = true :=
  ⟨by decide, pushed_once_per_rising_edge.2.1 c2_rec _ (by decide)⟩

/-! ## C10: suppression of redundant writes -/


theorem set_output_writes (r : ZtlDigitalOutput) (x : Bool) :
    ((set_output r x none).writes = [] ∧ (set_output r x none).out.hw_state = r.hw_state) ∨
    ((set_output r x none).writes = [x] ∧ x ≠ r.hw_state ∧
      (set_output r x none).out.hw_state = x) := by
  by_cases h : x = r.hw_state
  · left; simp [set_output, h]
  · right; simp [set_output, h]

theorem set_output_rc (r : ZtlDigitalOutput) (x : Bool) : (set_output r x none).rc = Rc.ok := by
  by_cases h : x = r.hw_state <;> simp [set_output, h]

theorem handle_output_shape (r : ZtlDigitalOutput) (now : Nat) :
    handle_output r now none = ⟨Rc.ok, r, []⟩ ∨
    ∃ (r1 : ZtlDigitalOutput) (x : Bool),
      handle_output r now none = set_output r1 x none ∧ r1.hw_state = r.hw_state := by
  unfold handle_output
  simp only
  repeat' split
  all_goals first
    | exact Or.inl rfl
    | exact Or.inr ⟨_, _, rfl, rfl⟩

theorem apply_output_op_writes (r : ZtlDigitalOutput) (op : OutputOp) :
    ((apply_output_op r op).writes = [] ∧ (apply_output_op r op).out.hw_state = r.hw_state) ∨
    (∃ x, (apply_output_op r op).writes = [x] ∧ x ≠ r.hw_state ∧
      (apply_output_op r op).out.hw_state = x) := by
  cases op with
  | set state =>
    simp only [apply_output_op, ztl_digital_output__set]
    split
    · simp only [set_output_rc, ne_eq, not_true_eq_false, if_false]
      rcases set_output_writes r state with h | h
      · exact Or.inl h
      · exact Or.inr ⟨state, h⟩
    · exact Or.inl ⟨rfl, rfl⟩
  | start_blink n t =>
    simp only [apply_output_op, ztl_digital_output__start_blink]
    rcases set_output_writes { r with pulse_count := n, pulse_state := true, tl_pulse_ms := t }
      true with h | h
    · exact Or.inl h
    · exact Or.inr ⟨true, h⟩
  | config_blink p o =>
    simp only [apply_output_op, ztl_digital_output__config_blink]
    split
    · exact Or.inl ⟨rfl, rfl⟩
    · split
      · exact Or.inl ⟨rfl, rfl⟩
      · exact Or.inl ⟨rfl, rfl⟩
  | stop_blink =>
    simp only [apply_output_op, ztl_digital_output__stop_blink]
    rcases set_output_writes { r with pulse_count := 0 } r.state with h | h
    · exact Or.inl h
    · exact Or.inr ⟨r.state, h⟩
  | tick now =>
    simp only [apply_output_op]
    rcases handle_output_shape r now with h | ⟨r1, x, h2, h1⟩
    · rw [h]; exact Or.inl ⟨rfl, rfl⟩
    · rw [h2, ← h1]
      rcases set_output_writes r1 x with h | h
      · exact Or.inl h
      · exact Or.inr ⟨x, h⟩

theorem run_output_ops_writes (ops : List OutputOp) :
    ∀ (r : ZtlDigitalOutput),
      (run_output_ops r ops).1.hw_state = (run_output_ops r ops).2.getLastD r.hw_state ∧
      List.Chain (fun a b => a ≠ b) r.hw_state (run_output_ops r ops).2 := by
  induction ops with
  | nil => intro r; simp [run_output_ops]
  | cons op rest ih =>
    intro r
    have h := ih (apply_output_op r op).out
    simp only [run_output_ops]
    rcases apply_output_op_writes r op with ⟨hw, hh⟩ | ⟨x, hw, hne, hh⟩
    · rw [hw, List.nil_append, ← hh]
      exact h
    · rw [hw]
      rw [hh] at h
      refine ⟨?_, ?_⟩
      · rw [h.1]
        cases (run_output_ops (apply_output_op r op).out rest).2 <;> rfl
      · exact List.Chain.cons (Ne.symm hne) h.2


/-- C10 (code defect, the one of C5): the write suppression itself holds: in
every state reached from a freshly initialised output (whose init wrote low) by
`set`, `start_blink`, `config_blink`, `stop_blink` and ticks, `hw_state` is the
last value written and no write repeats the value written before it; `set`
during a pulse train writes nothing, `set` of the settled state writes nothing
when the line is at the settled level, and `set_output` of the current
`hw_state` writes nothing. But after `start_blink(0)` the record is idle
(`pulse_count = 0`) with the line high and the settled state low, and `set(low)`,
a set of the settled state to its current value, issues a write. -/
theorem set_of_settled_state_writes_after_zero_start :
    (∀ (gpio : GpioDtSpec) (ops : List OutputOp),
      (run_output_ops (output_init_record gpio) ops).1.hw_state =
        (run_output_ops (output_init_record gpio) ops).2.getLastD false ∧
      List.Chain (fun a b => a ≠ b) false (run_output_ops (output_init_record gpio) ops).2) ∧
    (∀ (r : ZtlDigitalOutput) (s : Bool), r.pulse_count ≠ 0 →
      (ztl_digital_output__set r s none).writes = []) ∧
    (∀ (r : ZtlDigitalOutput), r.hw_state = r.state →
      (ztl_digital_output__set r r.state none).writes = []) ∧
    (∀ (r : ZtlDigitalOutput), (set_output r r.hw_state none).writes = []) ∧
    ((run_output_ops (output_init_record ⟨0, 1⟩) [OutputOp.start_blink 0 5]).1.pulse_count = 0 ∧
     (run_output_ops (output_init_record ⟨0, 1⟩) [OutputOp.start_blink 0 5]).1.state = false ∧
     (run_output_ops (output_init_record ⟨0, 1⟩) [OutputOp.start_blink 0 5]).1.hw_state = true ∧
     (ztl_digital_output__set
       (run_output_ops (output_init_record ⟨0, 1⟩) [OutputOp.start_blink 0 5]).1
       false none).writes = [false] ∧
     (run_output_ops (output_init_record ⟨0, 1⟩)
       [OutputOp.start_blink 0 5, OutputOp.set false]).2 = [true, false]) := by
  refine ⟨?_, ?_, ?_, ?_, by decide⟩
  · intro gpio ops
    exact run_output_ops_writes ops (output_init_record gpio)
  · intro r s h
    have h' : ¬ (0 = r.pulse_count) := fun e => h e.symm
    simp [ztl_digital_output__set, h']
  · intro r h
    by_cases hc : 0 = r.pulse_count
    · simp [ztl_digital_output__set, hc, set_output, h]
    · simp [ztl_digital_output__set, hc]
  · intro r
    simp [set_output]

/-! ## C11: configuration of the pulse durations -/


theorem set_output_out (r : ZtlDigitalOutput) (x : Bool) (pin : Option Int) :
    (set_output r x pin).out = { r with hw_state := x } := by
  unfold set_output
  by_cases h : x = r.hw_state
  · simp [h]
  · cases pin <;> simp [h]

theorem handle_output_keeps_config (r : ZtlDigitalOutput) (now : Nat) (pin : Option Int) :
    (handle_output r now pin).out.pulse_period_ms = r.pulse_period_ms ∧
    (handle_output r now pin).out.pulse_on_ms = r.pulse_on_ms ∧
    (handle_output r now pin).out.state = r.state ∧
    (handle_output r now pin).out.gpio = r.gpio := by
  unfold handle_output
  simp only
  repeat' split
  all_goals simp [set_output_out]

theorem set_keeps_config (r : ZtlDigitalOutput) (s : Bool) (pin : Option Int) :
    (ztl_digital_output__set r s pin).out.pulse_period_ms = r.pulse_period_ms ∧
    (ztl_digital_output__set r s pin).out.pulse_on_ms = r.pulse_on_ms := by
  unfold ztl_digital_output__set
  simp only
  repeat' split
  all_goals simp [set_output_out]

theorem apply_output_op_keeps_config_order (r : ZtlDigitalOutput) (op : OutputOp)
    (h : 0 < r.pulse_on_ms ∧ r.pulse_on_ms < r.pulse_period_ms) :
    0 < (apply_output_op r op).out.pulse_on_ms ∧
    (apply_output_op r op).out.pulse_on_ms < (apply_output_op r op).out.pulse_period_ms := by
  cases op with
  | set s =>
    simp only [apply_output_op]
    rw [(set_keeps_config r s none).1, (set_keeps_config r s none).2]
    exact h
  | start_blink n t =>
    simp only [apply_output_op, ztl_digital_output__start_blink, set_output_out]
    exact h
  | config_blink p o =>
    simp only [apply_output_op, ztl_digital_output__config_blink]
    split
    · exact h
    · split
      · exact h
      · simp only
        omega
  | stop_blink =>
    simp only [apply_output_op, ztl_digital_output__stop_blink, set_output_out]
    exact h
  | tick now =>
    simp only [apply_output_op]
    rw [(handle_output_keeps_config r now none).1, (handle_output_keeps_config r now none).2.1]
    exact h

theorem run_output_ops_config_order (ops : List OutputOp) :
    ∀ (r : ZtlDigitalOutput), (0 < r.pulse_on_ms ∧ r.pulse_on_ms < r.pulse_period_ms) →
      0 < (run_output_ops r ops).1.pulse_on_ms ∧
      (run_output_ops r ops).1.pulse_on_ms < (run_output_ops r ops).1.pulse_period_ms := by
  induction ops with
  | nil => intro r h; exact h
  | cons op rest ih =>
    intro r h
    simp only [run_output_ops]
    exact ih _ (apply_output_op_keeps_config_order r op h)

/-- C11: `config_blink(period, on_time)` returns 0 exactly when
`0 < on_time < period`; it then stores these two values and changes nothing
else; otherwise it returns `ER_INVAL` and leaves the record as it is; it never
writes the pin. `set`, `start_blink`, `stop_blink` and ticks leave both
durations alone whatever the pin driver answers, so
`0 < pulse_on_ms < pulse_period_ms` holds in every state reached from a freshly
initialised output. -/
theorem config_blink_contract :
    (∀ (r : ZtlDigitalOutput) (p o : Nat),
      ((ztl_digital_output__config_blink r p o).rc = Rc.ok ↔ (0 < o ∧ o < p)) ∧
      ((0 < o ∧ o < p) → (ztl_digital_output__config_blink r p o).out =
        { r with pulse_period_ms := p, pulse_on_ms := o }) ∧
      (¬ (0 < o ∧ o < p) → (ztl_digital_output__config_blink r p o).rc = Rc.ER_INVAL ∧
        (ztl_digital_output__config_blink r p o).out = r) ∧
      (ztl_digital_output__config_blink r p o).writes = []) ∧
    (∀ (r : ZtlDigitalOutput) (s : Bool) (n : Int) (t now : Nat) (pin : Option Int),
      ((ztl_digital_output__set r s pin).out.pulse_period_ms = r.pulse_period_ms ∧
       (ztl_digital_output__set r s pin).out.pulse_on_ms = r.pulse_on_ms) ∧
      ((ztl_digital_output__start_blink r n t pin).out.pulse_period_ms = r.pulse_period_ms ∧
       (ztl_digital_output__start_blink r n t pin).out.pulse_on_ms = r.pulse_on_ms) ∧
      ((ztl_digital_output__stop_blink r pin).out.pulse_period_ms = r.pulse_period_ms ∧
       (ztl_digital_output__stop_blink r pin).out.pulse_on_ms = r.pulse_on_ms) ∧
      ((handle_output r now pin).out.pulse_period_ms = r.pulse_period_ms ∧
       (handle_output r now pin).out.pulse_on_ms = r.pulse_on_ms)) ∧
    (∀ (gpio : GpioDtSpec) (ops : List OutputOp),
      0 < (run_output_ops (output_init_record gpio) ops).1.pulse_on_ms ∧
      (run_output_ops (output_init_record gpio) ops).1.pulse_on_ms <
        (run_output_ops (output_init_record gpio) ops).1.pulse_period_ms) := by
  refine ⟨?_, ?_, ?_⟩
  · intro r p o
    by_cases h1 : 0 < o
    · by_cases h2 : o < p
      · simp [ztl_digital_output__config_blink, h1, h2]
      · simp [ztl_digital_output__config_blink, h1, h2]
    · simp [ztl_digital_output__config_blink, h1]
  · intro r s n t now pin
    refine ⟨set_keeps_config r s pin, ?_, ?_, ?_⟩
    · simp [ztl_digital_output__start_blink, set_output_out]
    · simp [ztl_digital_output__stop_blink, set_output_out]
    · exact ⟨(handle_output_keeps_config r now pin).1, (handle_output_keeps_config r now pin).2.1⟩
  · intro gpio ops
    exact run_output_ops_config_order ops (output_init_record gpio)
      (by simp [output_init_record])

theorem config_blink_contract_witness :
    (0 < 100 ∧ 100 < 400) ∧
    (ztl_digital_output__config_blink (output_init_record ⟨0, 1⟩) 400 100).out =
      { output_init_record ⟨0, 1⟩ with pulse_period_ms := 400, pulse_on_ms := 100 } :=
  ⟨by decide, (config_blink_contract.1 (output_init_record ⟨0, 1⟩) 400 100).2.1 (by decide)⟩

/-! ## C12: rejected registrations -/


theorem first_free_slot_none (g : List (Option Nat)) :
    first_free_slot g = none ↔ ∀ slot ∈ g, slot ≠ none := by
  induction g with
  | nil => simp [first_free_slot]
  | cons x rest ih =>
    cases x with
    | none => simp [first_free_slot]
    | some p => simp [first_free_slot, ih]

theorem first_free_slot_some (g : List (Option Nat)) :
    ∀ i, first_free_slot g = some i →
      g[i]? = some none ∧ ∀ j, j < i → ∃ p, g[j]? = some (some p) := by
  induction g with
  | nil => intro i h; simp [first_free_slot] at h
  | cons x rest ih =>
    intro i h
    cases x with
    | none =>
      simp [first_free_slot] at h
      subst h
      simp
    | some p =>
      simp only [first_free_slot, Option.map_eq_some'] at h
      obtain ⟨k, hk, rfl⟩ := h
      have := ih k hk
      refine ⟨by simpa using this.1, ?_⟩
      intro j hj
      cases j with
      | zero => exact ⟨p, by simp⟩
      | succ j =>
        obtain ⟨q, hq⟩ := this.2 j (by omega)
        exact ⟨q, by simpa using hq⟩

theorem input_pin_registered_iff (w : InputRegistry) (gpio : GpioDtSpec) :
    input_pin_registered w gpio = true ↔
      ∃ (i p : Nat), w.g_inputs[i]? = some (some p) ∧ (w.mem p).gpio.port = gpio.port ∧
        (w.mem p).gpio.pin = gpio.pin := by
  unfold input_pin_registered
  rw [List.any_eq_true]
  constructor
  · rintro ⟨slot, hmem, hp⟩
    cases slot with
    | none => simp at hp
    | some p =>
      obtain ⟨i, hi⟩ := List.getElem?_of_mem hmem
      simp only [Bool.and_eq_true, decide_eq_true_eq] at hp
      exact ⟨i, p, hi, hp.1, hp.2⟩
  · rintro ⟨i, p, hi, h1, h2⟩
    exact ⟨some p, List.getElem?_mem hi, by simp [h1, h2]⟩

theorem output_pin_registered_iff (w : OutputRegistry) (gpio : GpioDtSpec) :
    output_pin_registered w gpio = true ↔
      ∃ (i p : Nat), w.g_outputs[i]? = some (some p) ∧ (w.mem p).gpio.port = gpio.port ∧
        (w.mem p).gpio.pin = gpio.pin := by
  unfold output_pin_registered
  rw [List.any_eq_true]
  constructor
  · rintro ⟨slot, hmem, hp⟩
    cases slot with
    | none => simp at hp
    | some p =>
      obtain ⟨i, hi⟩ := List.getElem?_of_mem hmem
      simp only [Bool.and_eq_true, decide_eq_true_eq] at hp
      exact ⟨i, p, hi, hp.1, hp.2⟩
  · rintro ⟨i, p, hi, h1, h2⟩
    exact ⟨some p, List.getElem?_mem hi, by simp [h1, h2]⟩

/-- The three ways `ztl_digital_input__init` can go. -/
theorem input_init_cases (w : InputRegistry) (self : Nat) (gpio : GpioDtSpec) (slots : Nat)
    (get_config : Option Int) (active_high : Bool) (configure : Option Int) :
    (input_pin_registered w gpio = true ∧
      ztl_digital_input__init w self gpio slots get_config active_high configure =
        (Rc.ER_ALREADY, w)) ∨
    (input_pin_registered w gpio = false ∧ first_free_slot w.g_inputs = none ∧
      ztl_digital_input__init w self gpio slots get_config active_high configure =
        (Rc.ER_NO_MEM, w)) ∨
    (input_pin_registered w gpio = false ∧ ∃ i, first_free_slot w.g_inputs = some i ∧
      (ztl_digital_input__init w self gpio slots get_config active_high configure).2.g_inputs =
        w.g_inputs.set i (some self) ∧
      (ztl_digital_input__init w self gpio slots get_config active_high configure).1 =
        (match get_config with
         | some e => Rc.hw e
         | none => match configure with
           | some e => Rc.hw e
           | none => Rc.ok)) := by
  unfold ztl_digital_input__init
  cases hreg : input_pin_registered w gpio
  · right
    cases hfree : first_free_slot w.g_inputs with
    | none => left; simp
    | some i =>
      right
      refine ⟨rfl, i, rfl, ?_, ?_⟩ <;>
        cases get_config <;> cases configure <;> simp
  · left; simp

theorem output_init_cases (w : OutputRegistry) (self : Nat) (gpio : GpioDtSpec)
    (configure : Option Int) (pin : Option Int) :
    (output_pin_registered w gpio = true ∧
      ztl_digital_output__init w self gpio configure pin = (Rc.ER_ALREADY, w, [])) ∨
    (output_pin_registered w gpio = false ∧ first_free_slot w.g_outputs = none ∧
      ztl_digital_output__init w self gpio configure pin = (Rc.ER_NO_MEM, w, [])) ∨
    (output_pin_registered w gpio = false ∧ ∃ i, first_free_slot w.g_outputs = some i ∧
      (ztl_digital_output__init w self gpio configure pin).2.1.g_outputs =
        w.g_outputs.set i (some self) ∧
      (ztl_digital_output__init w self gpio configure pin).1 =
        (match configure with
         | some e => Rc.hw e
         | none => match pin with
           | some e => Rc.hw e
           | none => Rc.ok)) := by
  unfold ztl_digital_output__init
  cases hreg : output_pin_registered w gpio
  · right
    cases hfree : first_free_slot w.g_outputs with
    | none => left; simp
    | some i =>
      right
      refine ⟨rfl, i, rfl, ?_, ?_⟩ <;>
        cases configure <;> cases pin <;> simp
  · left; simp


/-- C12: for both registries, `init` with non-null arguments returns
`ER_ALREADY` exactly when some occupied slot references a pin with the same
port and pin number; otherwise it returns `ER_NO_MEM` exactly when no slot is
free; and when it returns one of the two, the slot array and the memory of all
objects (the passed one included) are as before. (A failed pin operation is a
return code of its own, distinct from `ER_NO_MEM`.) -/
theorem init_rejections_leave_registry :
    (∀ (w : InputRegistry) (self : Nat) (gpio : GpioDtSpec) (slots : Nat)
       (get_config : Option Int) (active_high : Bool) (configure : Option Int),
      ((ztl_digital_input__init w self gpio slots get_config active_high configure).1 =
          Rc.ER_ALREADY ↔
        ∃ (i p : Nat), w.g_inputs[i]? = some (some p) ∧ (w.mem p).gpio.port = gpio.port ∧
          (w.mem p).gpio.pin = gpio.pin) ∧
      ((¬ ∃ (i p : Nat), w.g_inputs[i]? = some (some p) ∧ (w.mem p).gpio.port = gpio.port ∧
          (w.mem p).gpio.pin = gpio.pin) →
        ((ztl_digital_input__init w self gpio slots get_config active_high configure).1 =
            Rc.ER_NO_MEM ↔ ∀ slot ∈ w.g_inputs, slot ≠ none)) ∧
      (((ztl_digital_input__init w self gpio slots get_config active_high configure).1 =
            Rc.ER_ALREADY ∨
        (ztl_digital_input__init w self gpio slots get_config active_high configure).1 =
            Rc.ER_NO_MEM) →
        (ztl_digital_input__init w self gpio slots get_config active_high configure).2 = w)) ∧
    (∀ (w : OutputRegistry) (self : Nat) (gpio : GpioDtSpec)
       (configure : Option Int) (pin : Option Int),
      ((ztl_digital_output__init w self gpio configure pin).1 = Rc.ER_ALREADY ↔
        ∃ (i p : Nat), w.g_outputs[i]? = some (some p) ∧ (w.mem p).gpio.port = gpio.port ∧
          (w.mem p).gpio.pin = gpio.pin) ∧
      ((¬ ∃ (i p : Nat), w.g_outputs[i]? = some (some p) ∧ (w.mem p).gpio.port = gpio.port ∧
          (w.mem p).gpio.pin = gpio.pin) →
        ((ztl_digital_output__init w self gpio configure pin).1 = Rc.ER_NO_MEM ↔
          ∀ slot ∈ w.g_outputs, slot ≠ none)) ∧
      (((ztl_digital_output__init w self gpio configure pin).1 = Rc.ER_ALREADY ∨
        (ztl_digital_output__init w self gpio configure pin).1 = Rc.ER_NO_MEM) →
        (ztl_digital_output__init w self gpio configure pin).2.1 = w ∧
        (ztl_digital_output__init w self gpio configure pin).2.2 = [])) := by
  refine ⟨?_, ?_⟩
  · intro w self gpio slots get_config active_high configure
    rw [← input_pin_registered_iff]
    rcases input_init_cases w self gpio slots get_config active_high configure with
      ⟨hreg, h⟩ | ⟨hreg, hfree, h⟩ | ⟨hreg, i, hfree, _, hrc⟩
    · rw [h]
      exact ⟨⟨fun _ => hreg, fun _ => rfl⟩, fun hn => absurd hreg hn, fun _ => rfl⟩
    · rw [h]
      refine ⟨⟨fun hh => by simp at hh, fun hh => by rw [hreg] at hh; simp at hh⟩, ?_, fun _ => rfl⟩
      intro _
      exact ⟨fun _ => (first_free_slot_none _).1 hfree, fun _ => rfl⟩
    · have hne1 : (ztl_digital_input__init w self gpio slots get_config active_high
          configure).1 ≠ Rc.ER_ALREADY := by
        rw [hrc]; cases get_config <;> cases configure <;> simp
      have hne2 : (ztl_digital_input__init w self gpio slots get_config active_high
          configure).1 ≠ Rc.ER_NO_MEM := by
        rw [hrc]; cases get_config <;> cases configure <;> simp
      refine ⟨⟨fun hh => absurd hh hne1, fun hh => by rw [hreg] at hh; simp at hh⟩, ?_, ?_⟩
      · intro _
        refine ⟨fun hh => absurd hh hne2, fun hh => ?_⟩
        have := (first_free_slot_none _).2 hh
        rw [hfree] at this
        simp at this
      · rintro (hh | hh)
        · exact absurd hh hne1
        · exact absurd hh hne2
  · intro w self gpio configure pin
    rw [← output_pin_registered_iff]
    rcases output_init_cases w self gpio configure pin with
      ⟨hreg, h⟩ | ⟨hreg, hfree, h⟩ | ⟨hreg, i, hfree, _, hrc⟩
    · rw [h]
      exact ⟨⟨fun _ => hreg, fun _ => rfl⟩, fun hn => absurd hreg hn, fun _ => ⟨rfl, rfl⟩⟩
    · rw [h]
      refine ⟨⟨fun hh => by simp at hh, fun hh => by rw [hreg] at hh; simp at hh⟩, ?_,
        fun _ => ⟨rfl, rfl⟩⟩
      intro _
      exact ⟨fun _ => (first_free_slot_none _).1 hfree, fun _ => rfl⟩
    · have hne1 : (ztl_digital_output__init w self gpio configure pin).1 ≠ Rc.ER_ALREADY := by
        rw [hrc]; cases configure <;> cases pin <;> simp
      have hne2 : (ztl_digital_output__init w self gpio configure pin).1 ≠ Rc.ER_NO_MEM := by
        rw [hrc]; cases configure <;> cases pin <;> simp
      refine ⟨⟨fun hh => absurd hh hne1, fun hh => by rw [hreg] at hh; simp at hh⟩, ?_, ?_⟩
      · intro _
        refine ⟨fun hh => absurd hh hne2, fun hh => ?_⟩
        have := (first_free_slot_none _).2 hh
        rw [hfree] at this
        simp at this
      · rintro (hh | hh)
        · exact absurd hh hne1
        · exact absurd hh hne2


theorem init_rejections_leave_registry_witness :
    (∀ slot ∈ c12_inputs.g_inputs, slot ≠ none) ∧
    (ztl_digital_input__init c12_inputs 2 ⟨0, 7⟩ 1 none true none).1 = Rc.ER_NO_MEM :=
  ⟨by decide,
   ((init_rejections_leave_registry.1 c12_inputs 2 ⟨0, 7⟩ 1 none true none).2.1
      (by rw [← input_pin_registered_iff]; decide)).2 (by decide)⟩

/-! ## C13: a pin failure during init -/


theorem mem_write_same {α : Type} (mem : Nat → α) (p : Nat) (v : α) : mem_write mem p v p = v := by
  simp [mem_write]

theorem input_init_failed_keeps_slot (w : InputRegistry) (self : Nat) (gpio : GpioDtSpec)
    (slots : Nat) (get_config : Option Int) (active_high : Bool) (configure : Option Int)
    (i : Nat) (hreg : input_pin_registered w gpio = false)
    (hfree : first_free_slot w.g_inputs = some i) :
    w.g_inputs[i]? = some none ∧
    (ztl_digital_input__init w self gpio slots get_config active_high configure).2.g_inputs[i]? =
      some (some self) ∧
    ((ztl_digital_input__init w self gpio slots get_config active_high configure).2.mem
      self).gpio = gpio := by
  have hslot := (first_free_slot_some w.g_inputs i hfree).1
  have hlt : i < w.g_inputs.length := by
    by_contra hc
    rw [List.getElem?_eq_none (by omega)] at hslot
    simp at hslot
  refine ⟨hslot, ?_, ?_⟩
  · unfold ztl_digital_input__init
    simp only [hreg, hfree]
    cases get_config <;> cases configure <;> simp [hlt]
  · unfold ztl_digital_input__init
    simp only [hreg, hfree]
    cases get_config <;> cases configure <;> simp [mem_write_same, input_init_record]

theorem output_init_failed_keeps_slot (w : OutputRegistry) (self : Nat) (gpio : GpioDtSpec)
    (configure : Option Int) (pin : Option Int)
    (i : Nat) (hreg : output_pin_registered w gpio = false)
    (hfree : first_free_slot w.g_outputs = some i) :
    w.g_outputs[i]? = some none ∧
    (ztl_digital_output__init w self gpio configure pin).2.1.g_outputs[i]? = some (some self) ∧
    ((ztl_digital_output__init w self gpio configure pin).2.1.mem self).gpio = gpio := by
  have hslot := (first_free_slot_some w.g_outputs i hfree).1
  have hlt : i < w.g_outputs.length := by
    by_contra hc
    rw [List.getElem?_eq_none (by omega)] at hslot
    simp at hslot
  refine ⟨hslot, ?_, ?_⟩
  · unfold ztl_digital_output__init
    simp only [hreg, hfree]
    cases configure <;> cases pin <;> simp [hlt]
  · unfold ztl_digital_output__init
    simp only [hreg, hfree]
    cases configure <;> cases pin <;> simp [mem_write_same, output_init_record]

theorem input_init_already (w : InputRegistry) (self : Nat) (gpio : GpioDtSpec) (slots : Nat)
    (get_config : Option Int) (active_high : Bool) (configure : Option Int)
    (h : input_pin_registered w gpio = true) :
    (ztl_digital_input__init w self gpio slots get_config active_high configure).1 =
      Rc.ER_ALREADY := by
  simp [ztl_digital_input__init, h]

theorem output_init_already (w : OutputRegistry) (self : Nat) (gpio : GpioDtSpec)
    (configure : Option Int) (pin : Option Int) (h : output_pin_registered w gpio = true) :
    (ztl_digital_output__init w self gpio configure pin).1 = Rc.ER_ALREADY := by
  simp [ztl_digital_output__init, h]

/-- C13 (code defect): both `init` functions store `self` in the free slot
before they call the pin driver and have no path that takes it out again. When
no duplicate exists and slot `i` is the first free one, whatever the pin driver
answers the slot `i`, `NULL` before, holds `self` after the call and the
object carries the pin, so a later `init` for the same pin returns
`ER_ALREADY`. On an empty input registry of capacity two, `init` with a failing
`gpio_pin_configure_dt` (code -5) returns the hardware error, leaves
`g_inputs = [self, NULL]`, the next `init` for the same pin is rejected with
`ER_ALREADY` and the poller evaluates the object; likewise with a failing
`gpio_pin_get_config_dt`, and for outputs with a failing configure or a failing
initial write. -/
theorem failed_init_stays_registered :
    (∀ (w : InputRegistry) (self : Nat) (gpio : GpioDtSpec) (slots : Nat)
       (get_config : Option Int) (active_high : Bool) (configure : Option Int) (i : Nat),
      input_pin_registered w gpio = false → first_free_slot w.g_inputs = some i →
        w.g_inputs[i]? = some none ∧
        (ztl_digital_input__init w self gpio slots get_config active_high
          configure).2.g_inputs[i]? = some (some self) ∧
        ∀ (self2 : Nat) (gc2 : Option Int) (ah2 : Bool) (cf2 : Option Int),
          (ztl_digital_input__init
            (ztl_digital_input__init w self gpio slots get_config active_high configure).2
            self2 gpio slots gc2 ah2 cf2).1 = Rc.ER_ALREADY) ∧
    (∀ (w : OutputRegistry) (self : Nat) (gpio : GpioDtSpec)
       (configure : Option Int) (pin : Option Int) (i : Nat),
      output_pin_registered w gpio = false → first_free_slot w.g_outputs = some i →
        w.g_outputs[i]? = some none ∧
        (ztl_digital_output__init w self gpio configure pin).2.1.g_outputs[i]? =
          some (some self) ∧
        ∀ (self2 : Nat) (cf2 : Option Int) (pin2 : Option Int),
          (ztl_digital_output__init (ztl_digital_output__init w self gpio configure pin).2.1
            self2 gpio cf2 pin2).1 = Rc.ER_ALREADY) ∧
    ((ztl_digital_input__init c13_inputs 0 ⟨0, 3⟩ 1 none true (some (-5))).1 = Rc.hw (-5) ∧
     (ztl_digital_input__init c13_inputs 0 ⟨0, 3⟩ 1 none true (some (-5))).2.g_inputs =
       [some 0, none] ∧
     (ztl_digital_input__init
       (ztl_digital_input__init c13_inputs 0 ⟨0, 3⟩ 1 none true (some (-5))).2
       0 ⟨0, 3⟩ 1 none true none).1 = Rc.ER_ALREADY ∧
     (Option.map PollResult.evaluated
       (input_handler 2 (ztl_digital_input__init c13_inputs 0 ⟨0, 3⟩ 1 none true (some (-5))).2
         (fun _ => true) 7)) = some [0] ∧
     (ztl_digital_input__init c13_inputs 0 ⟨0, 3⟩ 1 (some (-5)) true none).1 = Rc.hw (-5) ∧
     (ztl_digital_input__init c13_inputs 0 ⟨0, 3⟩ 1 (some (-5)) true none).2.g_inputs =
       [some 0, none] ∧
     (ztl_digital_output__init c13_outputs 0 ⟨0, 3⟩ (some (-5)) none).1 = Rc.hw (-5) ∧
     (ztl_digital_output__init c13_outputs 0 ⟨0, 3⟩ (some (-5)) none).2.1.g_outputs =
       [some 0, none] ∧
     (ztl_digital_output__init c13_outputs 0 ⟨0, 3⟩ none (some (-5))).1 = Rc.hw (-5) ∧
     (ztl_digital_output__init c13_outputs 0 ⟨0, 3⟩ none (some (-5))).2.1.g_outputs =
       [some 0, none] ∧
     (ztl_digital_output__init
       (ztl_digital_output__init c13_outputs 0 ⟨0, 3⟩ none (some (-5))).2.1
       0 ⟨0, 3⟩ none none).1 = Rc.ER_ALREADY) := by
  refine ⟨?_, ?_, by decide⟩
  · intro w self gpio slots get_config active_high configure i hreg hfree
    obtain ⟨h1, h2, h3⟩ := input_init_failed_keeps_slot w self gpio slots get_config
      active_high configure i hreg hfree
    refine ⟨h1, h2, ?_⟩
    intro self2 gc2 ah2 cf2
    have hreg2 : input_pin_registered
        (ztl_digital_input__init w self gpio slots get_config active_high configure).2 gpio =
          true := by
      rw [input_pin_registered_iff]
      exact ⟨i, self, h2, by rw [h3], by rw [h3]⟩
    exact input_init_already _ _ _ _ _ _ _ hreg2
  · intro w self gpio configure pin i hreg hfree
    obtain ⟨h1, h2, h3⟩ := output_init_failed_keeps_slot w self gpio configure pin i hreg hfree
    refine ⟨h1, h2, ?_⟩
    intro self2 cf2 pin2
    have hreg2 : output_pin_registered
        (ztl_digital_output__init w self gpio configure pin).2.1 gpio = true := by
      rw [output_pin_registered_iff]
      exact ⟨i, self, h2, by rw [h3], by rw [h3]⟩
    exact output_init_already _ _ _ _ _ hreg2

/-! ## C14: one slot per callback -/


theorem subscribe_loop_at (conditions : ZtlDigitalInputEventConditions) (cb : Option Nat)
    (arg : Nat) (ds : List ZtlDigitalInputCallbackDescriptor) :
    ∀ (k : Nat) (d : ZtlDigitalInputCallbackDescriptor),
      (∀ j, j < k → ∃ e, ds[j]? = some e ∧ e.callback ≠ none ∧ e.callback ≠ cb) →
      ds[k]? = some d → (d.callback = none ∨ d.callback = cb) →
      subscribe_loop conditions cb arg ds = some (ds.set k ⟨cb, conditions, arg⟩) := by
  induction ds with
  | nil => intro k d _ hk; simp at hk
  | cons x rest ih =>
    intro k d hbefore hk hd
    cases k with
    | zero =>
      simp at hk
      subst hk
      have : none = x.callback ∨ cb = x.callback := by
        rcases hd with h | h
        · exact Or.inl h.symm
        · exact Or.inr h.symm
      simp [subscribe_loop, this]
    | succ k =>
      obtain ⟨e, he, h1, h2⟩ := hbefore 0 (by omega)
      simp at he
      subst he
      have hx : ¬ (none = x.callback ∨ cb = x.callback) := by
        rintro (h | h)
        · exact h1 h.symm
        · exact h2 h.symm
      have hrest := ih k d
        (fun j hj => by
          obtain ⟨e, he, h⟩ := hbefore (j + 1) (by omega)
          exact ⟨e, by simpa using he, h⟩)
        (by simpa using hk) hd
      simp [subscribe_loop, hx, hrest]

theorem subscribe_loop_none (conditions : ZtlDigitalInputEventConditions) (cb : Option Nat)
    (arg : Nat) (ds : List ZtlDigitalInputCallbackDescriptor)
    (h : ∀ d ∈ ds, d.callback ≠ none ∧ d.callback ≠ cb) :
    subscribe_loop conditions cb arg ds = none := by
  induction ds with
  | nil => rfl
  | cons x rest ih =>
    have hx := h x (List.mem_cons_self _ _)
    have hx' : ¬ (none = x.callback ∨ cb = x.callback) := by
      rintro (h1 | h1)
      · exact hx.1 h1.symm
      · exact hx.2 h1.symm
    simp [subscribe_loop, hx', ih (fun d hd => h d (List.mem_cons_of_mem _ hd))]

theorem subscribe_loop_mem (conditions : ZtlDigitalInputEventConditions) (cb : Option Nat)
    (arg : Nat) (ds : List ZtlDigitalInputCallbackDescriptor) :
    ∀ ds2, subscribe_loop conditions cb arg ds = some ds2 →
      ∀ e ∈ ds2, e ∈ ds ∨ e = ⟨cb, conditions, arg⟩ := by
  induction ds with
  | nil => intro ds2 h; simp [subscribe_loop] at h
  | cons x rest ih =>
    intro ds2 h e he
    unfold subscribe_loop at h
    split at h
    · simp at h
      subst h
      rcases List.mem_cons.1 he with h1 | h1
      · exact Or.inr h1
      · exact Or.inl (List.mem_cons_of_mem _ h1)
    · simp only [Option.map_eq_some'] at h
      obtain ⟨r2, hr, rfl⟩ := h
      rcases List.mem_cons.1 he with h1 | h1
      · exact Or.inl (by rw [h1]; exact List.mem_cons_self _ _)
      · rcases ih r2 hr e h1 with h2 | h2
        · exact Or.inl (List.mem_cons_of_mem _ h2)
        · exact Or.inr h2

theorem packed_of_free (ds : List ZtlDigitalInputCallbackDescriptor)
    (h : ∀ e ∈ ds, e.callback = none) : descriptors_packed ds := by
  induction ds with
  | nil => trivial
  | cons x rest ih =>
    have hx := h x (List.mem_cons_self _ _)
    unfold descriptors_packed
    rw [hx]
    exact fun e he => h e (List.mem_cons_of_mem _ he)

theorem subscribe_loop_packed (conditions : ZtlDigitalInputEventConditions) (cb : Option Nat)
    (arg : Nat) (ds : List ZtlDigitalInputCallbackDescriptor) :
    ∀ ds2, descriptors_packed ds → subscribe_loop conditions cb arg ds = some ds2 →
      descriptors_packed ds2 := by
  induction ds with
  | nil => intro ds2 _ h; simp [subscribe_loop] at h
  | cons x rest ih =>
    intro ds2 hp h
    unfold descriptors_packed at hp
    cases hx : x.callback with
    | none =>
      rw [hx] at hp
      simp only at hp
      simp [subscribe_loop, hx] at h
      subst h
      unfold descriptors_packed
      cases cb with
      | none => exact hp
      | some c =>
        refine ⟨?_, packed_of_free rest hp⟩
        intro e he
        rw [hp e he]
        simp
    | some y =>
      rw [hx] at hp
      simp only at hp
      by_cases hc : cb = some y
      · simp [subscribe_loop, hx, hc] at h
        subst h
        unfold descriptors_packed
        exact hp
      · have hx' : ¬ (none = x.callback ∨ cb = x.callback) := by
          rw [hx]
          rintro (h1 | h1)
          · simp at h1
          · exact hc h1
        simp only [subscribe_loop, hx', if_false, Option.map_eq_some'] at h
        obtain ⟨r2, hr, rfl⟩ := h
        unfold descriptors_packed
        rw [hx]
        refine ⟨?_, ih r2 hp.2 hr⟩
        intro e he
        rcases subscribe_loop_mem conditions cb arg rest r2 hr e he with h1 | h1
        · exact hp.1 e h1
        · rw [h1]
          exact hc

theorem packed_index (ds : List ZtlDigitalInputCallbackDescriptor) :
    descriptors_packed ds →
      callbacks_distinct ds ∧
      ∀ (k : Nat) (d : ZtlDigitalInputCallbackDescriptor), ds[k]? = some d →
        d.callback ≠ none → ∀ j, j < k → ∃ e, ds[j]? = some e ∧ e.callback ≠ none := by
  induction ds with
  | nil =>
    intro _
    refine ⟨?_, ?_⟩
    · intro i j d e cb hi
      simp at hi
    · intro k d hk
      simp at hk
  | cons x rest ih =>
    intro hp
    unfold descriptors_packed at hp
    cases hx : x.callback with
    | none =>
      rw [hx] at hp
      simp only at hp
      refine ⟨?_, ?_⟩
      · intro i j d e cb hi hj hd he
        exfalso
        have hdm := List.getElem?_mem hi
        rcases List.mem_cons.1 hdm with h | h
        · rw [h, hx] at hd; simp at hd
        · rw [hp d h] at hd; simp at hd
      · intro k d hk hd j hj
        exfalso
        have hdm := List.getElem?_mem hk
        rcases List.mem_cons.1 hdm with h | h
        · rw [h] at hd; exact hd hx
        · exact hd (hp d h)
    | some y =>
      rw [hx] at hp
      simp only at hp
      obtain ⟨hdist, hpre⟩ := ih hp.2
      refine ⟨?_, ?_⟩
      · intro i j d e cb hi hj hd he
        cases i with
        | zero =>
          cases j with
          | zero => rfl
          | succ j =>
            exfalso
            simp at hi hj
            subst hi
            rw [hx] at hd
            have := hp.1 e (List.getElem?_mem hj)
            rw [he, ← hd] at this
            exact this rfl
        | succ i =>
          cases j with
          | zero =>
            exfalso
            simp at hi hj
            subst hj
            rw [hx] at he
            have := hp.1 d (List.getElem?_mem hi)
            rw [hd, ← he] at this
            exact this rfl
          | succ j =>
            simp at hi hj
            have := hdist i j d e cb hi hj hd he
            omega
      · intro k d hk hd j hj
        cases j with
        | zero => exact ⟨x, by simp, by rw [hx]; simp⟩
        | succ j =>
          cases k with
          | zero => omega
          | succ k =>
            simp at hk
            obtain ⟨e, he, h⟩ := hpre k d hk hd j (by omega)
            exact ⟨e, by simpa using he, h⟩

theorem subscribe_packed (s : ZtlDigitalInput) (conditions : ZtlDigitalInputEventConditions)
    (cb : Option Nat) (arg : Nat) (h : descriptors_packed s.callback_descriptors) :
    descriptors_packed (ztl_digital_input__subscribe s conditions cb arg).2.callback_descriptors := by
  unfold ztl_digital_input__subscribe
  cases hl : subscribe_loop conditions cb arg s.callback_descriptors with
  | none => exact h
  | some ds => exact subscribe_loop_packed conditions cb arg _ ds h hl

theorem run_subscribe_packed
    (calls : List (ZtlDigitalInputEventConditions × Option Nat × Nat)) :
    ∀ (s : ZtlDigitalInput), descriptors_packed s.callback_descriptors →
      descriptors_packed (run_subscribe s calls).callback_descriptors := by
  induction calls with
  | nil => intro s h; exact h
  | cons c rest ih =>
    intro s h
    obtain ⟨conditions, cb, arg⟩ := c
    simp only [run_subscribe]
    exact ih _ (subscribe_packed s conditions cb arg h)

theorem init_record_packed (gpio : GpioDtSpec) (lvl : ZtlLevel) (slots : Nat) :
    descriptors_packed (input_init_record gpio lvl slots).callback_descriptors := by
  apply packed_of_free
  intro e he
  simp only [input_init_record] at he
  rw [List.eq_of_mem_replicate he]


/-- C14: after any sequence of `subscribe` calls on a freshly initialised
input, no two descriptor slots hold the same non-null callback; and a
`subscribe` with a callback that slot `k` already holds returns 0 and replaces
exactly the descriptor of slot `k` by the callback with the new conditions and
argument, every other slot and every other field of the record staying as it
is. -/
theorem subscribe_one_slot_per_callback :
    (∀ (gpio : GpioDtSpec) (lvl : ZtlLevel) (slots : Nat)
       (calls : List (ZtlDigitalInputEventConditions × Option Nat × Nat)),
      callbacks_distinct
        (run_subscribe (input_init_record gpio lvl slots) calls).callback_descriptors) ∧
    (∀ (gpio : GpioDtSpec) (lvl : ZtlLevel) (slots : Nat)
       (calls : List (ZtlDigitalInputEventConditions × Option Nat × Nat))
       (k : Nat) (d : ZtlDigitalInputCallbackDescriptor) (cb : Nat)
       (conditions : ZtlDigitalInputEventConditions) (arg : Nat),
      (run_subscribe (input_init_record gpio lvl slots) calls).callback_descriptors[k]? =
          some d →
      d.callback = some cb →
        ztl_digital_input__subscribe (run_subscribe (input_init_record gpio lvl slots) calls)
            conditions (some cb) arg =
          (Rc.ok, { run_subscribe (input_init_record gpio lvl slots) calls with
            callback_descriptors :=
              (run_subscribe (input_init_record gpio lvl slots) calls).callback_descriptors.set k
                ⟨some cb, conditions, arg⟩ })) := by
  refine ⟨?_, ?_⟩
  · intro gpio lvl slots calls
    exact (packed_index _ (run_subscribe_packed calls _ (init_record_packed gpio lvl slots))).1
  · intro gpio lvl slots calls k d cb conditions arg hk hd
    have hp := packed_index _ (run_subscribe_packed calls _ (init_record_packed gpio lvl slots))
    generalize run_subscribe (input_init_record gpio lvl slots) calls = s at hk hp ⊢
    have hloop := subscribe_loop_at conditions (some cb) arg s.callback_descriptors k d
      (by
        intro j hj
        obtain ⟨e, he, hne⟩ := hp.2 k d hk (by rw [hd]; simp) j hj
        refine ⟨e, he, hne, ?_⟩
        intro hec
        have := hp.1 j k e d cb he hk hec hd
        omega)
      hk (Or.inr hd)
    simp [ztl_digital_input__subscribe, hloop]

theorem subscribe_one_slot_per_callback_witness :
    (c14_rec.callback_descriptors[1]? =
        some ⟨some 8, ⟨false, true, false, false, 0, 0⟩, 2⟩) ∧
    (ztl_digital_input__subscribe c14_rec ⟨false, false, true, true, 0, 0⟩ (some 8)
        5).2.callback_descriptors =
      [⟨some 7, ⟨true, false, false, false, 0, 0⟩, 1⟩,
       ⟨some 8, ⟨false, false, true, true, 0, 0⟩, 5⟩,
       ⟨none, ⟨false, false, false, false, 0, 0⟩, 0⟩] :=
  ⟨by decide,
   by
    have h := subscribe_one_slot_per_callback.2 ⟨0, 3⟩ ZtlLevel.HIGH 3
      [(⟨true, false, false, false, 0, 0⟩, some 7, 1),
       (⟨false, true, false, false, 0, 0⟩, some 8, 2)]
      1 ⟨some 8, ⟨false, true, false, false, 0, 0⟩, 2⟩ 8 ⟨false, false, true, true, 0, 0⟩ 5
      (by decide) rfl
    have h2 := congrArg (fun r => r.2.callback_descriptors) h
    simp only at h2
    exact h2.trans (by decide)⟩

/-! ## C15: subscriber capacity -/


/-- C15: on a record whose descriptor slots are all occupied, `subscribe` with
a callback that no slot holds returns `ER_NO_MEM` and leaves the record as it
is; when slot `k` is the lowest-indexed free slot and no slot holds the
callback, `subscribe` returns 0 and stores callback, conditions and argument in
slot `k`, leaving every other slot and field as it is. -/
theorem subscribe_capacity :
    (∀ (s : ZtlDigitalInput) (conditions : ZtlDigitalInputEventConditions)
       (cb : Option Nat) (arg : Nat),
      (∀ d ∈ s.callback_descriptors, d.callback ≠ none) →
      (∀ d ∈ s.callback_descriptors, d.callback ≠ cb) →
        ztl_digital_input__subscribe s conditions cb arg = (Rc.ER_NO_MEM, s)) ∧
    (∀ (s : ZtlDigitalInput) (conditions : ZtlDigitalInputEventConditions)
       (cb : Nat) (arg : Nat) (k : Nat) (d : ZtlDigitalInputCallbackDescriptor),
      s.callback_descriptors[k]? = some d → d.callback = none →
      (∀ j, j < k → ∃ e, s.callback_descriptors[j]? = some e ∧ e.callback ≠ none) →
      (∀ e ∈ s.callback_descriptors, e.callback ≠ some cb) →
        ztl_digital_input__subscribe s conditions (some cb) arg =
          (Rc.ok, { s with callback_descriptors :=
            s.callback_descriptors.set k ⟨some cb, conditions, arg⟩ })) := by
  refine ⟨?_, ?_⟩
  · intro s conditions cb arg hfull hnot
    have := subscribe_loop_none conditions cb arg s.callback_descriptors
      (fun d hd => ⟨hfull d hd, hnot d hd⟩)
    simp [ztl_digital_input__subscribe, this]
  · intro s conditions cb arg k d hk hd hlow hnot
    have hloop := subscribe_loop_at conditions (some cb) arg s.callback_descriptors k d
      (by
        intro j hj
        obtain ⟨e, he, hne⟩ := hlow j hj
        exact ⟨e, he, hne, hnot e (List.getElem?_mem he)⟩)
      hk (Or.inl hd)
    simp [ztl_digital_input__subscribe, hloop]

theorem subscribe_capacity_witness :
    ((∀ d ∈ (ztl_digital_input__subscribe c14_rec ⟨false, false, true, true, 0, 0⟩ (some 9)
          5).2.callback_descriptors, d.callback ≠ none) ∧
      (∀ d ∈ (ztl_digital_input__subscribe c14_rec ⟨false, false, true, true, 0, 0⟩ (some 9)
          5).2.callback_descriptors, d.callback ≠ some 10)) ∧
    ztl_digital_input__subscribe
        (ztl_digital_input__subscribe c14_rec ⟨false, false, true, true, 0, 0⟩ (some 9) 5).2
        ⟨true, true, false, false, 0, 0⟩ (some 10) 6 =
      (Rc.ER_NO_MEM,
        (ztl_digital_input__subscribe c14_rec ⟨false, false, true, true, 0, 0⟩ (some 9) 5).2) :=
  ⟨by decide,
   subscribe_capacity.1 _ ⟨true, true, false, false, 0, 0⟩ (some 10) 6 (by decide) (by decide)⟩

/-! ## C16: set during and outside a pulse train -/


/-- C16 as stated fails: `set(true)` on a freshly initialised (idle) output whose
pin write fails with code -5 returns that error and does not store the settled
state, which stays low. -/
theorem set_idle_failed_write_keeps_state :
    (output_init_record ⟨0, 1⟩).pulse_count = 0 ∧
    (ztl_digital_output__set (output_init_record ⟨0, 1⟩) true (some (-5))).rc = Rc.hw (-5) ∧
    ¬ ((ztl_digital_output__set (output_init_record ⟨0, 1⟩) true (some (-5))).out.state =
        true) := by
  decide

/-- C16 amended: `set(s)` during a pulse train (`pulse_count != 0`) returns 0,
writes nothing to the pin and changes only the settled state, whatever the pin
driver would answer; `set(s)` while idle, the write succeeding, returns 0,
leaves `hw_state = s` and the settled state `s`, writes `s` unless the line is
already at `s`, and changes nothing else; `set(s)` while idle with the line
already at `s` needs no write and does the same whatever the pin driver would
answer; `set(s)` while idle whose write fails returns the driver's error and
leaves the settled state as it was. -/
theorem set_contract :
    (∀ (r : ZtlDigitalOutput) (s : Bool) (pin : Option Int), r.pulse_count ≠ 0 →
      ztl_digital_output__set r s pin = ⟨Rc.ok, { r with state := s }, []⟩) ∧
    (∀ (r : ZtlDigitalOutput) (s : Bool), r.pulse_count = 0 →
      ztl_digital_output__set r s none =
        ⟨Rc.ok, { r with hw_state := s, state := s }, if s = r.hw_state then [] else [s]⟩) ∧
    (∀ (r : ZtlDigitalOutput) (s : Bool) (pin : Option Int), r.pulse_count = 0 →
      s = r.hw_state →
        ztl_digital_output__set r s pin = ⟨Rc.ok, { r with state := s }, []⟩) ∧
    (∀ (r : ZtlDigitalOutput) (s : Bool) (e : Int), r.pulse_count = 0 → s ≠ r.hw_state →
      (ztl_digital_output__set r s (some e)).rc = Rc.hw e ∧
      (ztl_digital_output__set r s (some e)).out.state = r.state ∧
      (ztl_digital_output__set r s (some e)).writes = [s]) := by
  refine ⟨?_, ?_, ?_, ?_⟩
  · intro r s pin h
    have h' : ¬ (0 = r.pulse_count) := fun e => h e.symm
    simp [ztl_digital_output__set, h']
  · intro r s h
    by_cases hs : s = r.hw_state
    · simp [ztl_digital_output__set, h, set_output, hs]
    · simp [ztl_digital_output__set, h, set_output, hs]
  · intro r s pin h hs
    simp [ztl_digital_output__set, h, set_output, hs]
  · intro r s e h hs
    simp [ztl_digital_output__set, h, set_output, hs]

theorem set_contract_witness :
    (c17_rec.pulse_count ≠ 0 ∧ c17_rec.state = false ∧
      (output_init_record ⟨0, 1⟩).pulse_count = 0) ∧
    ztl_digital_output__set c17_rec true none = ⟨Rc.ok, { c17_rec with state := true }, []⟩ ∧
    ztl_digital_output__set (output_init_record ⟨0, 1⟩) true none =
      ⟨Rc.ok, { output_init_record ⟨0, 1⟩ with hw_state := true, state := true },
        if true = (output_init_record ⟨0, 1⟩).hw_state then [] else [true]⟩ ∧
    (ztl_digital_output__set (output_init_record ⟨0, 1⟩) true none).writes = [true] :=
  ⟨by decide, set_contract.1 c17_rec true none (by decide),
   set_contract.2.1 (output_init_record ⟨0, 1⟩) true (by decide), by decide⟩

/-! ## C17: unbounded pulse trains -/


theorem handle_output_negative (r : ZtlDigitalOutput) (now : Nat) (pin : Option Int)
    (h : r.pulse_count < 0) :
    (handle_output r now pin).out.pulse_count = r.pulse_count ∧
    (IS_TIME_EXPIRED_EX r.tl_pulse_ms (pulse_phase_ms r) now = true →
      (handle_output r now pin).out =
        { r with tl_pulse_ms := now, pulse_state := !r.pulse_state,
                 hw_state := !r.pulse_state }) ∧
    (IS_TIME_EXPIRED_EX r.tl_pulse_ms (pulse_phase_ms r) now = false →
      handle_output r now pin = ⟨Rc.ok, r, []⟩) := by
  have h0 : ¬ (0 = r.pulse_count) := by omega
  have h1 : ¬ (r.pulse_count > 0) := by omega
  refine ⟨?_, ?_, ?_⟩
  · unfold handle_output
    simp only
    repeat' split
    all_goals first
      | rfl
      | (simp only [set_output_out])
  · intro he
    unfold pulse_phase_ms at he
    unfold handle_output
    simp only [he, h0, ne_eq, not_false_eq_true, and_self, if_true, h1, if_false]
    split <;> simp [set_output_out]
  · intro he
    unfold pulse_phase_ms at he
    unfold handle_output
    simp [he]

theorem run_ticks_negative (ts : List Nat) :
    ∀ (r : ZtlDigitalOutput), r.pulse_count < 0 →
      (run_output_ops r (ts.map OutputOp.tick)).1.pulse_count = r.pulse_count := by
  induction ts with
  | nil => intro r _; rfl
  | cons t rest ih =>
    intro r h
    simp only [List.map_cons, run_output_ops, apply_output_op]
    have h1 := (handle_output_negative r t none h).1
    rw [ih _ (by rw [h1]; exact h), h1]

/-- C17: on a record with `pulse_count < 0` a tick never changes `pulse_count`,
whatever the timestamp and the pin driver's answer, so after any sequence of
ticks the count is the same negative number; a tick at which the duration of
the phase in progress has expired flips the phase, drives the line to the new
phase and restarts the phase timer, and any other tick does nothing. `set` and
`config_blink` leave `pulse_count` alone; `stop_blink` sets it to 0 and
`start_blink` to its argument. -/
theorem negative_count_never_ends :
    (∀ (r : ZtlDigitalOutput) (now : Nat) (pin : Option Int), r.pulse_count < 0 →
      (handle_output r now pin).out.pulse_count = r.pulse_count ∧
      (IS_TIME_EXPIRED_EX r.tl_pulse_ms (pulse_phase_ms r) now = true →
        (handle_output r now pin).out =
          { r with tl_pulse_ms := now, pulse_state := !r.pulse_state,
                   hw_state := !r.pulse_state }) ∧
      (IS_TIME_EXPIRED_EX r.tl_pulse_ms (pulse_phase_ms r) now = false →
        handle_output r now pin = ⟨Rc.ok, r, []⟩)) ∧
    (∀ (r : ZtlDigitalOutput) (ts : List Nat), r.pulse_count < 0 →
      (run_output_ops r (ts.map OutputOp.tick)).1.pulse_count = r.pulse_count) ∧
    (∀ (r : ZtlDigitalOutput) (s : Bool) (p o : Nat) (n : Int) (t : Nat) (pin : Option Int),
      (ztl_digital_output__set r s pin).out.pulse_count = r.pulse_count ∧
      (ztl_digital_output__config_blink r p o).out.pulse_count = r.pulse_count ∧
      (ztl_digital_output__stop_blink r pin).out.pulse_count = 0 ∧
      (ztl_digital_output__start_blink r n t pin).out.pulse_count = n) := by
  refine ⟨handle_output_negative, fun r ts h => run_ticks_negative ts r h, ?_⟩
  intro r s p o n t pin
  refine ⟨?_, ?_, ?_, ?_⟩
  · unfold ztl_digital_output__set
    simp only
    repeat' split
    all_goals simp [set_output_out]
  · unfold ztl_digital_output__config_blink
    repeat' split
    all_goals rfl
  · simp [ztl_digital_output__stop_blink, set_output_out]
  · simp [ztl_digital_output__start_blink, set_output_out]

theorem negative_count_never_ends_witness :
    (c17_rec.pulse_count < 0 ∧
      IS_TIME_EXPIRED_EX c17_rec.tl_pulse_ms (pulse_phase_ms c17_rec) 1250 = true) ∧
    (handle_output c17_rec 1250 none).out =
      { c17_rec with tl_pulse_ms := 1250, pulse_state := !c17_rec.pulse_state,
                     hw_state := !c17_rec.pulse_state } :=
  ⟨by decide,
   (negative_count_never_ends.1 c17_rec 1250 none (by decide)).2.1 (by decide)⟩

/-! ## C18: evaluation of a raw change -/


theorem loop_raw_eq_spec (v : Bool) (ds : List ZtlDigitalInputCallbackDescriptor) :
    ∀ (i : Nat), handle_input_loop_raw v i ds = raw_dispatch_spec v i ds := by
  induction ds with
  | nil => intro i; rfl
  | cons x rest ih =>
    intro i
    conv_lhs => unfold handle_input_loop_raw
    unfold raw_dispatch_spec
    rw [List.enumFrom_cons, List.filterMap_cons]
    have ih' := ih (i + 1)
    unfold raw_dispatch_spec at ih'
    cases hcb : x.callback with
    | none => simp only [ih']
    | some cb =>
      cases v <;> cases h1 : x.conditions.change_state_to_active <;>
        cases h2 : x.conditions.change_state_to_inactive <;> simp [ih', hcb, h1, h2]

/-- C18: an evaluation of `handle_input` whose sample `v` differs from the
recorded raw state sets `tl_handling` and `tl_state_change` to `now`,
`is_state_changed` to true, `is_subs_called_for_duration` to false and
`prev_state` to `v`, and leaves every other field (the debounced state and both
debounced-changed flags among them) as it is; its calls are exactly the raw
dispatch of the specification: one raw event of the new direction to each
occupied slot whose raw condition for that direction is set, in slot order,
and nothing else, in particular no debounced and no duration event. -/
theorem raw_change_evaluation (s : ZtlDigitalInput) (v : Bool) (now : Nat)
    (hv : v ≠ s.prev_state) :
    (handle_input s v now).1 =
      { s with tl_handling := now, tl_state_change := now, is_state_changed := true,
               is_subs_called_for_duration := false, prev_state := v } ∧
    (handle_input s v now).2 = raw_dispatch_spec v 0 s.callback_descriptors ∧
    (∀ c ∈ (handle_input s v now).2,
      c.event = (if v then ZtlDigitalInputEventType.CHANGE_STATE_TO_ACTIVE
                 else ZtlDigitalInputEventType.CHANGE_STATE_TO_INACTIVE)) := by
  rw [handle_input_change s v now hv]
  refine ⟨rfl, loop_raw_eq_spec v _ 0, ?_⟩
  intro c hc
  exact loop_raw_event v _ 0 c hc

theorem raw_change_evaluation_witness :
    (true ≠ c2_rec.prev_state) ∧
    (handle_input c2_rec true 7).2 =
      [⟨0, 7, ZtlDigitalInputEventType.CHANGE_STATE_TO_ACTIVE, 42⟩] :=
  ⟨by decide, (raw_change_evaluation c2_rec true 7 (by decide)).2.1.trans (by decide)⟩

/-! ## C19: the bound of the input poller -/


theorem input_handler_loop_out_of_bounds (sample : Nat → Bool) (now : Nat) :
    ∀ (count i : Nat) (w : InputRegistry), 0 < count → w.g_inputs.length < i + count →
      Option.map PollResult.evaluated (input_handler_loop sample now i count w) = none := by
  intro count
  induction count with
  | zero => intro i w h0; omega
  | succ count ih =>
    intro i w _ h
    unfold input_handler_loop
    by_cases hi : i < w.g_inputs.length
    · rw [List.getElem?_eq_getElem hi]
      cases hs : w.g_inputs[i] with
      | none => exact ih (i + 1) w (by omega) (by omega)
      | some p =>
        simp only
        split
        · have := ih (i + 1) ⟨w.g_inputs, mem_write w.mem p (handle_input (w.mem p) (sample p) now).1⟩
            (by omega) (by simp only; omega)
          cases hr : input_handler_loop sample now (i + 1) count
            ⟨w.g_inputs, mem_write w.mem p (handle_input (w.mem p) (sample p) now).1⟩ with
          | none => rfl
          | some r => rw [hr] at this; simp at this
        · exact ih (i + 1) w (by omega) (by omega)
    · rw [List.getElem?_eq_none (by omega)]
      rfl

theorem input_handler_loop_range (sample : Nat → Bool) (now : Nat) :
    ∀ (count i : Nat) (w : InputRegistry) (r : PollResult),
      input_handler_loop sample now i count w = some r →
      ∀ k ∈ r.evaluated, i ≤ k ∧ k < i + count := by
  intro count
  induction count with
  | zero =>
    intro i w r h k hk
    simp [input_handler_loop] at h
    subst h
    simp at hk
  | succ count ih =>
    intro i w r h k hk
    unfold input_handler_loop at h
    split at h
    · simp at h
    · have := ih (i + 1) w r h k hk
      omega
    · rename_i p _
      split at h
      · simp only at h
        cases hr2 : input_handler_loop sample now (i + 1) count
            ⟨w.g_inputs, mem_write w.mem p (handle_input (w.mem p) (sample p) now).1⟩ with
        | none => rw [hr2] at h; simp at h
        | some r2 =>
          rw [hr2] at h
          simp only [Option.some.injEq] at h
          subst h
          simp only [List.mem_cons] at hk
          rcases hk with hk | hk
          · omega
          · have := ih (i + 1) _ r2 hr2 k hk
            omega
      · have := ih (i + 1) w r h k hk
        omega

/-- C19 (code defect): the loop of `input_handler` over `g_inputs` is bounded
by `CONFIG_ZTL_DIGITAL_OUTPUT_MAX_COUNT`, not by the length
`CONFIG_ZTL_DIGITAL_INPUT_MAX_COUNT` of the array. When the output constant is
the larger one the loop reads `g_inputs` outside the array; in every pass the
evaluated slots lie below the output constant, so input slots from that index
on are never polled. With two registered inputs not yet handled at `now = 5`:
bound 1 evaluates slot 0 only and leaves the object of slot 1 unhandled, bound
3 reads index 2 of an array of length 2, and only the bound 2 evaluates both. -/
theorem input_poller_uses_output_capacity :
    (∀ (output_max_count : Nat) (w : InputRegistry) (sample : Nat → Bool) (now : Nat),
      w.g_inputs.length < output_max_count →
        Option.map PollResult.evaluated (input_handler output_max_count w sample now) = none) ∧
    (∀ (output_max_count : Nat) (w : InputRegistry) (sample : Nat → Bool) (now : Nat)
       (r : PollResult),
      input_handler output_max_count w sample now = some r →
        ∀ k ∈ r.evaluated, k < output_max_count) ∧
    (c12_inputs.g_inputs = [some 0, some 1] ∧
     (c12_inputs.mem 0).tl_handling ≠ 5 ∧ (c12_inputs.mem 1).tl_handling ≠ 5 ∧
     Option.map PollResult.evaluated (input_handler 1 c12_inputs (fun _ => false) 5) =
       some [0] ∧
     Option.map (fun r => (r.world.mem 1).tl_handling)
       (input_handler 1 c12_inputs (fun _ => false) 5) = some 0 ∧
     Option.map PollResult.evaluated (input_handler 3 c12_inputs (fun _ => false) 5) = none ∧
     Option.map PollResult.evaluated (input_handler 2 c12_inputs (fun _ => false) 5) =
       some [0, 1]) := by
  refine ⟨?_, ?_, by decide⟩
  · intro output_max_count w sample now h
    exact input_handler_loop_out_of_bounds sample now output_max_count 0 w (by omega) (by omega)
  · intro output_max_count w sample now r h k hk
    have := input_handler_loop_range sample now output_max_count 0 w r h k hk
    omega

/-! ## C20: the per-tick guard -/


theorem handle_input_tl_handling (s : ZtlDigitalInput) (v : Bool) (now : Nat) :
    (handle_input s v now).1.tl_handling = now := by
  by_cases hv : v = s.prev_state
  · by_cases hq : (now + U64 - s.tl_state_change) % U64 < s.debounce_duration_ms ∨
        s.prev_state_debounced = s.prev_state
    · rw [handle_input_quiet s v now hv hq]
    · have hd : s.debounce_duration_ms ≤ (now + U64 - s.tl_state_change) % U64 := by
        by_contra hc
        exact hq (Or.inl (Nat.not_le.1 hc))
      have hne : s.prev_state_debounced ≠ s.prev_state := fun h => hq (Or.inr h)
      rw [handle_input_commit s v now hv hd hne]
  · rw [handle_input_change s v now hv]

theorem handle_if_needed_tl_handling (s : ZtlDigitalInput) (v : Bool) (now : Nat) :
    (handle_if_needed s v now).1.tl_handling = now := by
  unfold handle_if_needed
  by_cases ht : s.tl_handling = now
  · simp [ht]
  · simp only [ne_eq, ht, not_false_eq_true, if_true]
    exact handle_input_tl_handling s v now

theorem tl_handling_trace_eq (evals : List (Bool × Nat)) :
    ∀ (s : ZtlDigitalInput), tl_handling_trace s evals = evals.map Prod.snd := by
  induction evals with
  | nil => intro s; rfl
  | cons e rest ih =>
    intro s
    obtain ⟨v, now⟩ := e
    simp only [tl_handling_trace, List.map_cons, handle_if_needed_tl_handling, ih]

/-- C20: every evaluation `handle_input(self, now)` leaves `tl_handling = now`;
a catch-up `handle_if_needed`, or a visit of the poller loop, at a timestamp
equal to the record's `tl_handling` changes nothing and calls nobody; a second
guarded evaluation at the same timestamp therefore changes nothing, whatever it
would sample; after a guarded evaluation `tl_handling` is its timestamp, so
along non-decreasing timestamps `tl_handling` is non-decreasing. -/
theorem per_tick_guard :
    (∀ (s : ZtlDigitalInput) (v : Bool) (now : Nat),
      (handle_input s v now).1.tl_handling = now) ∧
    (∀ (s : ZtlDigitalInput) (v : Bool), handle_if_needed s v s.tl_handling = (s, [])) ∧
    (∀ (sample : Nat → Bool) (now i count p : Nat) (w : InputRegistry),
      w.g_inputs[i]? = some (some p) → (w.mem p).tl_handling = now →
        input_handler_loop sample now i (count + 1) w =
          input_handler_loop sample now (i + 1) count w) ∧
    (∀ (s : ZtlDigitalInput) (v v2 : Bool) (now : Nat),
      handle_if_needed (handle_if_needed s v now).1 v2 now =
        ((handle_if_needed s v now).1, [])) ∧
    (∀ (s : ZtlDigitalInput) (v : Bool) (now : Nat),
      (handle_if_needed s v now).1.tl_handling = now) ∧
    (∀ (s : ZtlDigitalInput) (evals : List (Bool × Nat)),
      List.Chain (fun a b => a ≤ b) s.tl_handling (evals.map Prod.snd) →
        List.Chain (fun a b => a ≤ b) s.tl_handling (tl_handling_trace s evals)) := by
  refine ⟨handle_input_tl_handling, ?_, ?_, ?_, handle_if_needed_tl_handling, ?_⟩
  · intro s v
    simp [handle_if_needed]
  · intro sample now i count p w hi ht
    conv_lhs => unfold input_handler_loop
    simp [hi, ht]
  · intro s v v2 now
    have h := handle_if_needed_tl_handling s v now
    generalize (handle_if_needed s v now).1 = s1 at h
    simp [handle_if_needed, h]
  · intro s evals h
    rw [tl_handling_trace_eq]
    exact h

theorem per_tick_guard_witness :
    (List.Chain (fun a b => a ≤ b) c2_rec.tl_handling
      ([(true, 3), (true, 3), (false, 8)].map Prod.snd)) ∧
    List.Chain (fun a b => a ≤ b) c2_rec.tl_handling
      (tl_handling_trace c2_rec [(true, 3), (true, 3), (false, 8)]) :=
  ⟨by simp [c2_rec, input_init_record],
   per_tick_guard.2.2.2.2.2 c2_rec [(true, 3), (true, 3), (false, 8)]
     (by simp [c2_rec, input_init_record])⟩

/-! ## C21: the idle invariant -/


theorem handle_output_phase (r : ZtlDigitalOutput) (now : Nat) (pin : Option Int)
    (hc : r.pulse_count ≠ 0) :
    (IS_TIME_EXPIRED_EX r.tl_pulse_ms (pulse_phase_ms r) now = false →
      handle_output r now pin = ⟨Rc.ok, r, []⟩) ∧
    (IS_TIME_EXPIRED_EX r.tl_pulse_ms (pulse_phase_ms r) now = true →
      (handle_output r now pin).out.tl_pulse_ms = now ∧
      ((handle_output r now pin).out.pulse_state = (!r.pulse_state) ∨
       (handle_output r now pin).out.pulse_count = 0)) := by
  have hc' : ¬ (0 = r.pulse_count) := fun e => hc e.symm
  refine ⟨?_, ?_⟩
  · intro he
    unfold pulse_phase_ms at he
    unfold handle_output
    simp [he]
  · intro he
    unfold pulse_phase_ms at he
    unfold handle_output
    simp only [he, hc', ne_eq, not_false_eq_true, and_self, if_true]
    repeat' split
    all_goals simp [set_output_out]
    all_goals omega

/-- C22 as stated fails: on a train started at `t = 1000` with period 500 and
on-time 250 the high phase ends at the tick of `t = 1250`; after
`config_blink(1000, 500)` the same tick does nothing and the phase in
progress ends at `t = 1500`; after `config_blink(200, 50)` it already ends at
the tick of `t = 1100`, where without the call nothing happens. -/
theorem config_changes_phase_in_progress :
    (handle_output c22_rec 1250 none).out.pulse_state = false ∧
    handle_output (ztl_digital_output__config_blink c22_rec 1000 500).out 1250 none =
      ⟨Rc.ok, (ztl_digital_output__config_blink c22_rec 1000 500).out, []⟩ ∧
    (handle_output (ztl_digital_output__config_blink c22_rec 1000 500).out 1500
      none).out.pulse_state = false ∧
    handle_output c22_rec 1100 none = ⟨Rc.ok, c22_rec, []⟩ ∧
    (handle_output (ztl_digital_output__config_blink c22_rec 200 50).out 1100
      none).out.pulse_state = false := by
  decide

/-- C22 amended: a successful `config_blink(period, on_time)` during a pulse
train changes only the two stored durations (phase, phase start `tl_pulse_ms`,
count and line level stay), and it takes effect at once: from the call on
the phase in progress lasts the new on-time when it is the high phase and the
new `period - on_time` when it is the low phase, counted from the unchanged
phase start; a tick before that does nothing, a tick from then on ends the
phase (it restarts the phase timer and flips the phase or ends the train). -/
theorem config_takes_effect_at_once (r : ZtlDigitalOutput) (p o now : Nat) (pin : Option Int)
    (ho : 0 < o) (hp : o < p) (hc : r.pulse_count ≠ 0) :
    (ztl_digital_output__config_blink r p o).out =
      { r with pulse_period_ms := p, pulse_on_ms := o } ∧
    pulse_phase_ms (ztl_digital_output__config_blink r p o).out =
      (if r.pulse_state then o else (p + U16 - o) % U16) ∧
    (IS_TIME_EXPIRED_EX r.tl_pulse_ms (if r.pulse_state then o else (p + U16 - o) % U16) now =
        false →
      handle_output (ztl_digital_output__config_blink r p o).out now pin =
        ⟨Rc.ok, (ztl_digital_output__config_blink r p o).out, []⟩) ∧
    (IS_TIME_EXPIRED_EX r.tl_pulse_ms (if r.pulse_state then o else (p + U16 - o) % U16) now =
        true →
      (handle_output (ztl_digital_output__config_blink r p o).out now pin).out.tl_pulse_ms =
        now ∧
      ((handle_output (ztl_digital_output__config_blink r p o).out now pin).out.pulse_state =
          (!r.pulse_state) ∨
       (handle_output (ztl_digital_output__config_blink r p o).out now pin).out.pulse_count =
          0)) := by
  have hcfg : (ztl_digital_output__config_blink r p o).out =
      { r with pulse_period_ms := p, pulse_on_ms := o } := by
    simp [ztl_digital_output__config_blink, ho, hp]
  have hph := handle_output_phase (ztl_digital_output__config_blink r p o).out now pin
    (by rw [hcfg]; exact hc)
  rw [hcfg] at hph ⊢
  exact ⟨rfl, rfl, hph.1, hph.2⟩

theorem config_takes_effect_at_once_witness :
    (0 < 500 ∧ 500 < 1000 ∧ c22_rec.pulse_count ≠ 0 ∧
      IS_TIME_EXPIRED_EX c22_rec.tl_pulse_ms
        (if c22_rec.pulse_state then 500 else (1000 + U16 - 500) % U16) 1250 = false) ∧
    handle_output (ztl_digital_output__config_blink c22_rec 1000 500).out 1250 none =
      ⟨Rc.ok, (ztl_digital_output__config_blink c22_rec 1000 500).out, []⟩ :=
  ⟨by decide,
   (config_takes_effect_at_once c22_rec 1000 500 1250 none (by decide) (by decide)
     (by decide)).2.2.1 (by decide)⟩

/-! ## C23: the clump threshold after init -/


theorem handle_input_keeps_durations (s : ZtlDigitalInput) (v : Bool) (now : Nat) :
    (handle_input s v now).1.clump_duration_ms = s.clump_duration_ms ∧
    (handle_input s v now).1.debounce_duration_ms = s.debounce_duration_ms := by
  by_cases hv : v = s.prev_state
  · by_cases hq : (now + U64 - s.tl_state_change) % U64 < s.debounce_duration_ms ∨
        s.prev_state_debounced = s.prev_state
    · rw [handle_input_quiet s v now hv hq]
      exact ⟨rfl, rfl⟩
    · have hd : s.debounce_duration_ms ≤ (now + U64 - s.tl_state_change) % U64 := by
        by_contra hc
        exact hq (Or.inl (Nat.not_le.1 hc))
      have hne : s.prev_state_debounced ≠ s.prev_state := fun h => hq (Or.inr h)
      rw [handle_input_commit s v now hv hd hne]
      exact ⟨rfl, rfl⟩
  · rw [handle_input_change s v now hv]
    exact ⟨rfl, rfl⟩

theorem handle_if_needed_keeps_clump (s : ZtlDigitalInput) (v : Bool) (now : Nat) :
    (handle_if_needed s v now).1.clump_duration_ms = s.clump_duration_ms := by
  unfold handle_if_needed
  split
  · exact (handle_input_keeps_durations s v now).1
  · rfl

/-- C23: `init` leaves `clump_duration_ms = 0` and `set_clump_duration` rejects
0 with `ER_INVAL` (and stores any other value); evaluations, catch-ups and
`state_button` reads do not change the threshold; hence on every record whose
threshold is still 0, `state_button` returns `CLUMPED` on every read after
whose catch-up the raw state is active and no debounced push is pending, for
every value of the clock. On a freshly initialised input whose raw level is
sampled active for the first time by the read itself at `t = 7` (duration 0,
nothing debounced yet) the read returns `CLUMPED`. -/
theorem clumped_without_threshold :
    (∀ (gpio : GpioDtSpec) (lvl : ZtlLevel) (slots : Nat),
      (input_init_record gpio lvl slots).clump_duration_ms = 0) ∧
    (∀ (w : InputRegistry) (self : Nat) (gpio : GpioDtSpec) (slots : Nat) (active_high : Bool),
      (ztl_digital_input__init w self gpio slots none active_high none).1 = Rc.ok →
        ((ztl_digital_input__init w self gpio slots none active_high none).2.mem
          self).clump_duration_ms = 0) ∧
    (∀ (s : ZtlDigitalInput) (ms : Nat),
      ztl_digital_input__set_clump_duration s 0 = (Rc.ER_INVAL, s) ∧
      (0 < ms → ztl_digital_input__set_clump_duration s ms =
        (Rc.ok, { s with clump_duration_ms := ms }))) ∧
    (∀ (s : ZtlDigitalInput) (v : Bool) (now now2 : Nat),
      (handle_input s v now).1.clump_duration_ms = s.clump_duration_ms ∧
      (handle_if_needed s v now).1.clump_duration_ms = s.clump_duration_ms ∧
      (ztl_digital_input__state_button s v now now2).self.clump_duration_ms =
        s.clump_duration_ms) ∧
    (∀ (s : ZtlDigitalInput) (v : Bool) (now now2 : Nat),
      s.clump_duration_ms = 0 →
      (handle_if_needed s v now).1.prev_state = true →
      ¬ ((handle_if_needed s v now).1.is_state_changed_debounced_button = true ∧
         (handle_if_needed s v now).1.prev_state_debounced = true) →
        (ztl_digital_input__state_button s v now now2).state = ZtlButtonState.CLUMPED) ∧
    ((handle_if_needed (input_init_record ⟨0, 3⟩ ZtlLevel.HIGH 1) true 7).1.tl_state_change = 7 ∧
     (handle_if_needed (input_init_record ⟨0, 3⟩ ZtlLevel.HIGH 1) true 7).1.prev_state_debounced =
       false ∧
     (ztl_digital_input__state_button (input_init_record ⟨0, 3⟩ ZtlLevel.HIGH 1) true 7
       7).state = ZtlButtonState.CLUMPED) := by
  refine ⟨fun _ _ _ => rfl, ?_, ?_, ?_, ?_, by decide⟩
  · intro w self gpio slots active_high hok
    cases hreg : input_pin_registered w gpio with
    | true => simp [ztl_digital_input__init, hreg] at hok
    | false =>
      cases hfree : first_free_slot w.g_inputs with
      | none => simp [ztl_digital_input__init, hreg, hfree] at hok
      | some i => simp [ztl_digital_input__init, hreg, hfree, mem_write_same, input_init_record]
  · intro s ms
    refine ⟨by simp [ztl_digital_input__set_clump_duration], ?_⟩
    intro h
    simp [ztl_digital_input__set_clump_duration, h]
  · intro s v now now2
    refine ⟨(handle_input_keeps_durations s v now).1, handle_if_needed_keeps_clump s v now, ?_⟩
    have hk := handle_if_needed_keeps_clump s v now
    by_cases hp : (handle_if_needed s v now).1.is_state_changed_debounced_button = true ∧
        (handle_if_needed s v now).1.prev_state_debounced = true
    · rw [state_button_pushed s v now now2 hp.1 hp.2]
      exact hk
    · rw [(state_button_not_pushed s v now now2 hp).1]
      exact hk
  · intro s v now now2 h0 hraw hp
    have hk := handle_if_needed_keeps_clump s v now
    have hb : ((handle_if_needed s v now).1.is_state_changed_debounced_button &&
        (handle_if_needed s v now).1.prev_state_debounced) = false := by
      rw [Bool.and_eq_false_iff]
      by_cases h1 : (handle_if_needed s v now).1.is_state_changed_debounced_button = true
      · right
        cases h2 : (handle_if_needed s v now).1.prev_state_debounced
        · rfl
        · exact absurd ⟨h1, h2⟩ hp
      · left
        simpa using h1
    unfold ztl_digital_input__state_button
    simp [hb, hraw, hk, h0]

theorem clumped_without_threshold_witness :
    (c2_rec.clump_duration_ms = 0 ∧
      (handle_if_needed c2_rec true 7).1.prev_state = true ∧
      ¬ ((handle_if_needed c2_rec true 7).1.is_state_changed_debounced_button = true ∧
         (handle_if_needed c2_rec true 7).1.prev_state_debounced = true)) ∧
    (ztl_digital_input__state_button c2_rec true 7 7).state = ZtlButtonState.CLUMPED :=
  ⟨by decide,
   clumped_without_threshold.2.2.2.2.1 c2_rec true 7 7 (by decide) (by decide) (by decide)⟩

end Ztl
